import Mathlib

/-!
Verification development for the ONNX transpose-pushing optimizer
(`onnx_layout_transformation` namespace of the C++ source).

The optimizer core is embedded shallowly: the pure permutation/axes
algebra is translated function-for-function, and the graph mutation
layer (the `api::GraphRef` capability, whose implementation lives in a
header that is not part of the core file) is modelled from the spec's
description of the `Graph` capability (§6 of the design document):
a graph is a list of nodes plus named initializers, per-value metadata,
per-domain opsets and the set of graph-output names.

C++ `std::optional` dereferences that the source performs without a
check (undefined behavior) are modelled by `Option` with `none` marking
the undefined execution; `std::vector` writes out of bounds are modelled
by a checked set returning `none`.  Reads through documented "Unsafe if
..." preconditions are modelled with default-valued indexing (`getD`),
matching the source's reliance on those preconditions.
-/

set_option maxHeartbeats 1600000
set_option linter.unusedVariables false
set_option linter.unreachableTactic false
set_option linter.unusedTactic false

namespace OnnxTransposeOpt

/-- Attribute payloads used by the optimizer: a single integer or an
integer list (the only attribute kinds the core reads or writes). -/
inductive AttrValue where
  | int : Int → AttrValue
  | ints : List Int → AttrValue
deriving DecidableEq, Repr

/-- Tensor element types the optimizer inspects. -/
inductive DataType where
  | int32 | int64 | uint8 | int8 | float | other
deriving DecidableEq, Repr

/-- Modelled from the spec: a constant tensor (`TensorRef`).  The integer
payload is stored as a single `List Int`; `DataInt64`/`DataInt32` of the
C++ api both read this payload (the width only matters for serialization,
which the optimizer core never performs). -/
structure Tensor where
  dtype : DataType
  shape : List Int
  data : List Int
deriving DecidableEq, Repr

/-- Modelled from the spec: per-value metadata `{dtype, shape?}`
(`ValueInfo`); `shape = none` is unknown rank. -/
structure ValueInfo where
  dtype : DataType
  shape : Option (List Int)
deriving DecidableEq, Repr

/-- A graph node `{op_type, domain, attributes, inputs[], outputs[]}`;
`id` is the stable identity behind the C++ `NodeRef&` references. -/
structure Node where
  id : Nat
  opType : String
  domain : String
  inputs : List String
  outputs : List String
  attrs : List (String × AttrValue)
deriving DecidableEq, Repr

/-- Modelled from the spec: the `Graph` capability state.  `fresh` feeds
fresh node ids and fresh value names; `graphOutputs` are the externally
visible value names (consumer lists for them are not comprehensive). -/
structure Graph where
  nodes : List Node
  initializers : List (String × Tensor)
  valueInfos : List (String × ValueInfo)
  opsets : List (String × Int)
  graphOutputs : List String
  fresh : Nat
deriving DecidableEq, Repr

/-- `OptimizerCtx` minus the graph reference (the graph is threaded
explicitly through every function). -/
structure OptCtx where
  opset : Int
  allowExtendedOps : Bool
  skipCostCheck : Bool
deriving DecidableEq, Repr

/-- `HandlerArgs`: node references are ids into the graph. -/
structure HArgs where
  transposeId : Nat
  nodeId : Nat
  perm : List Int
  permInv : List Int
  transposibleInputs : List Nat
deriving DecidableEq, Repr

/-! ### Helper utils: permutation / axes algebra (direct translations) -/

/-- Checked list write: `none` when the C++ `vector::operator[]` write
would be out of bounds (undefined behavior). -/
def listSetChecked (l : List Int) (i : Nat) (v : Int) : Option (List Int) :=
  if i < l.length then some (l.set i v) else none

/-- `IsValidPerm`: perm contains each value from 0 to size-1 exactly once. -/
def isValidPermGo (rankInt : Int) (used : List Bool) : List Int → Bool
  | [] => true
  | x :: rest =>
    if x < 0 ∨ x ≥ rankInt ∨ used.getD x.toNat false then false
    else isValidPermGo rankInt (used.set x.toNat true) rest

/-- `IsValidPerm`. -/
def isValidPerm (perm : List Int) : Bool :=
  isValidPermGo (perm.length : Int) (List.replicate perm.length false) perm

/-- `GetPermAttrIfValid`: the `perm` attribute if present and valid. -/
def getPermAttrLookup : List (String × AttrValue) → Option (List Int)
  | [] => none
  | (k, v) :: rest =>
    if k = "perm" then
      match v with
      | AttrValue.ints l => some l
      | AttrValue.int _ => none
    else getPermAttrLookup rest

/-- Attribute lookup, integer-list valued. -/
def attrFindInts (attrs : List (String × AttrValue)) (name : String) : Option (List Int) :=
  match attrs.find? (fun kv => kv.1 = name) with
  | some (_, AttrValue.ints l) => some l
  | _ => none

/-- Attribute lookup, integer valued. -/
def attrFindInt (attrs : List (String × AttrValue)) (name : String) : Option Int :=
  match attrs.find? (fun kv => kv.1 = name) with
  | some (_, AttrValue.int v) => some v
  | _ => none

/-- `NodeRef::GetAttributeInts`. -/
def Node.getAttributeInts (n : Node) (name : String) : Option (List Int) :=
  attrFindInts n.attrs name

/-- `NodeRef::GetAttributeInt`. -/
def Node.getAttributeInt (n : Node) (name : String) : Option Int :=
  attrFindInt n.attrs name

/-- `NodeRef::GetAttributeIntDefault`. -/
def Node.getAttributeIntDefault (n : Node) (name : String) (d : Int) : Int :=
  (attrFindInt n.attrs name).getD d

/-- `GetPermAttrIfValid`. -/
def getPermAttrIfValid (n : Node) : Option (List Int) :=
  match n.getAttributeInts "perm" with
  | none => none
  | some perm => if isValidPerm perm then some perm else none

/-- `NormalizeAndValidateAxes` loop: adds rank to negative axes; range and
uniqueness checks (and the `used_dims` marking) happen only inside the
`axes[i] < 0` branch, exactly as in the source. -/
def navGo (rankInt : Int) (used : List Bool) : List Int → Option (List Int)
  | [] => some []
  | a :: rest =>
    if a < 0 then
      let a2 := a + rankInt
      if a2 < 0 ∨ a2 ≥ rankInt ∨ used.getD a2.toNat false then none
      else (navGo rankInt (used.set a2.toNat true) rest).map (a2 :: ·)
    else (navGo rankInt used rest).map (a :: ·)

/-- `NormalizeAndValidateAxes`: `some` of the normalized vector on
success (the C++ returns `true` and mutates in place), `none` on failure. -/
def normalizeAndValidateAxes (axes : List Int) (rank : Nat) : Option (List Int) :=
  navGo (rank : Int) (List.replicate rank false) axes

/-- `NormalizeAndValidateAxis`. -/
def normalizeAndValidateAxis (axis : Int) (rank : Nat) : Option Int :=
  let rankInt : Int := rank
  let axis := if axis < 0 then axis + rankInt else axis
  if 0 ≤ axis ∧ axis < rankInt then some axis else none

/-- `InvertPerm`: `perm_inv[perm[i]] = i`.  Unsafe if perm is invalid
(the source says the same). -/
def invertPerm (perm : List Int) : List Int :=
  perm.enum.foldl (fun acc ip => acc.set ip.2.toNat (ip.1 : Int))
    (List.replicate perm.length (0 : Int))

/-- `ComposePerm`: `result[i] = perm1[perm2[i]]`. -/
def composePerm (perm1 perm2 : List Int) : List Int :=
  perm2.map (fun p => perm1.getD p.toNat 0)

/-- `IsIdentityPerm`. -/
def isIdentityPerm (perm : List Int) : Bool :=
  perm.enum.all (fun ip => ip.2 == (ip.1 : Int))

/-- `ChannelLastToFirstPerm`: builds `[0, rank-1, 1, 2, …, rank-2]`.
The source allocates `p(rank)` and then writes `p[0]` and `p[1]`
unconditionally; both writes are bounds-checked here, so the result is
`none` exactly when the C++ write is out of bounds (rank < 2). -/
def channelLastToFirstPerm (rank : Nat) : Option (List Int) :=
  let p := List.replicate rank (0 : Int)
  match listSetChecked p 0 0 with
  | none => none
  | some p =>
    match listSetChecked p 1 ((rank : Int) - 1) with
    | none => none
    | some p =>
      some ((List.range' 2 (rank - 2)).foldl (fun q i => q.set i ((i : Int) - 1)) p)

/-- Second phase of `UnsqueezeShape`: fill the entries not prefilled
with 1 from the original shape, in order. -/
def fillNonOnes : List Int → List Int → List Int
  | [], _ => []
  | x :: rest, src =>
    if x ≠ 1 then src.headD 0 :: fillNonOnes rest src.tail
    else 1 :: fillNonOnes rest src

/-- `UnsqueezeShape`: inserts 1 dims at the positions listed in `axes`. -/
def unsqueezeShape (shape axes : List Int) : List Int :=
  let newRank := shape.length + axes.length
  let marked := axes.foldl (fun acc a => acc.set a.toNat 1) (List.replicate newRank (0 : Int))
  fillNonOnes marked shape

/-- `UnsqueezePerm`: perm over the unsqueezed rank fixing the inserted
1-dims and permuting the rest. -/
def unsqueezePerm (axes perm : List Int) : List Int :=
  let oldRank := perm.length
  let newRank := oldRank + axes.length
  let isAdded := axes.foldl (fun acc a => acc.set a.toNat true) (List.replicate newRank false)
  let axesMap := ((List.range newRank).filter (fun i => ¬ isAdded.getD i false)).map Int.ofNat
  ((List.range newRank).foldl
    (fun (st : Nat × List Int) i =>
      if isAdded.getD i false then (st.1, st.2 ++ [(i : Int)])
      else (st.1 + 1, st.2 ++ [axesMap.getD (perm.getD st.1 0).toNat 0]))
    (0, [])).2

/-- `SqueezePerm`: length `perm.length - axes.length`, reorders the
retained axes according to `perm`. -/
def squeezePerm (axes perm : List Int) : List Int :=
  let isRemoved := axes.foldl (fun acc a => acc.set a.toNat true) (List.replicate perm.length false)
  let axesMap := ((List.range perm.length).foldl
    (fun (st : Int × List Int) i =>
      if isRemoved.getD i false then (st.1, st.2 ++ [(0 : Int)])
      else (st.1 + 1, st.2 ++ [st.1]))
    (0, [])).2
  perm.foldl
    (fun acc p =>
      if isRemoved.getD p.toNat false then acc else acc ++ [axesMap.getD p.toNat 0]) []

/-- `AxesForTransposedInput`: `axes'[k] = perm[axes[k]]` (order kept). -/
def axesForTransposedInput (axes perm : List Int) : List Int :=
  axes.map (fun a => perm.getD a.toNat 0)

/-- `SortedAxesForTransposedInput`: the image of `axes` under `perm`,
sorted ascending by collecting marks over `[0, rank)`. -/
def sortedAxesForTransposedInput (axes perm : List Int) : List Int :=
  let rank := perm.length
  let should := axes.foldl
    (fun acc a => acc.set (perm.getD a.toNat 0).toNat true) (List.replicate rank false)
  ((List.range rank).filter (fun a => should.getD a false)).map Int.ofNat

/-- `PermutePads`: pads is `[starts…, ends…]`; both halves reordered by perm. -/
def permutePads (pads perm : List Int) : List Int :=
  let rank := perm.length
  perm.map (fun i => pads.getD i.toNat 0) ++ perm.map (fun i => pads.getD (i.toNat + rank) 0)

/-! ### Graph capability (modelled from the spec, §6) -/

/-- Node lookup behind a `NodeRef&`. -/
def getNode (g : Graph) (id : Nat) : Option Node :=
  g.nodes.find? (fun n => n.id = id)

/-- Modelled from the spec: `get_node_producing(value)`.  The empty name
denotes an absent optional value and is produced by no node. -/
def getNodeProducingOutput (g : Graph) (v : String) : Option Node :=
  if v = "" then none else g.nodes.find? (fun n => v ∈ n.outputs)

/-- `get_value_consumers` result: the consuming node snapshots plus the
`comprehensive` flag. -/
structure Consumers where
  nodes : List Node
  comprehensive : Bool

/-- Modelled from the spec: `get_value_consumers(value)`; the list is not
comprehensive when the value is a graph output (externally referenced). -/
def getValueConsumers (g : Graph) (v : String) : Consumers :=
  { nodes := g.nodes.filter (fun n => v ∈ n.inputs)
    comprehensive := v ∉ g.graphOutputs }

/-- Modelled from the spec: `has_value_consumers(value)`: consumed by a
node or externally visible as a graph output. -/
def hasValueConsumers (g : Graph) (v : String) : Bool :=
  decide (∃ n ∈ g.nodes, v ∈ n.inputs) || decide (v ∈ g.graphOutputs)

/-- Modelled from the spec: `get_constant(value)` — initializer lookup. -/
def getConstant (g : Graph) (v : String) : Option Tensor :=
  if v = "" then none
  else (g.initializers.find? (fun kv => kv.1 = v)).map (·.2)

/-- Modelled from the spec: `get_value_info(value)`; absent entries read
as unknown dtype and unknown shape. -/
def getValueInfo (g : Graph) (v : String) : ValueInfo :=
  ((g.valueInfos.find? (fun kv => kv.1 = v)).map (·.2)).getD ⟨DataType.other, none⟩

/-- Replace-or-append update of an association list. -/
def assocSet {α : Type} [DecidableEq α] {β : Type} :
    List (α × β) → α → β → List (α × β)
  | [], k, v => [(k, v)]
  | (k0, v0) :: rest, k, v =>
    if k0 = k then (k0, v) :: rest else (k0, v0) :: assocSet rest k v

/-- Write a value's `ValueInfo` entry. -/
def setValueInfo (g : Graph) (v : String) (vi : ValueInfo) : Graph :=
  { g with valueInfos := assocSet g.valueInfos v vi }

/-- Apply a function to a value's `ValueInfo` (the C++ mutates through
the `ValueInfoRef` returned by `GetValueInfo`). -/
def updateValueInfo (g : Graph) (v : String) (f : ValueInfo → ValueInfo) : Graph :=
  setValueInfo g v (f (getValueInfo g v))

/-- Modelled from the spec: `copy_value_info(src, dst)`. -/
def copyValueInfo (g : Graph) (src dst : String) : Graph :=
  setValueInfo g dst (getValueInfo g src)

/-- `ValueInfoRef::PermuteDims`: `new_shape[i] = shape[perm[i]]`
(no-op on unknown shape). -/
def permuteDimsInfo (vi : ValueInfo) (perm : List Int) : ValueInfo :=
  { vi with shape := vi.shape.map (fun s => perm.map (fun p => s.getD p.toNat 0)) }

/-- `ValueInfoRef::UnsqueezeDims` (no-op on unknown shape). -/
def unsqueezeDimsInfo (vi : ValueInfo) (axes : List Int) : ValueInfo :=
  { vi with shape := vi.shape.map (fun s => unsqueezeShape s axes) }

/-- `ValueInfoRef::SetShape`. -/
def setShapeInfo (vi : ValueInfo) (s : Option (List Int)) : ValueInfo :=
  { vi with shape := s }

/-- Point update of the node with the given id. -/
def updateNode (g : Graph) (id : Nat) (f : Node → Node) : Graph :=
  { g with nodes := g.nodes.map (fun n => if n.id = id then f n else n) }

/-- `NodeRef::SetInput(i, value)`. -/
def setInput (g : Graph) (id : Nat) (i : Nat) (v : String) : Graph :=
  updateNode g id (fun n => { n with inputs := n.inputs.set i v })

/-- `NodeRef::SetAttributeInt`. -/
def setAttributeInt (g : Graph) (id : Nat) (name : String) (v : Int) : Graph :=
  updateNode g id (fun n => { n with attrs := assocSet n.attrs name (AttrValue.int v) })

/-- `NodeRef::SetAttributeInts`. -/
def setAttributeInts (g : Graph) (id : Nat) (name : String) (v : List Int) : Graph :=
  updateNode g id (fun n => { n with attrs := assocSet n.attrs name (AttrValue.ints v) })

/-- `NodeRef::ClearAttribute`. -/
def clearAttribute (g : Graph) (id : Nat) (name : String) : Graph :=
  updateNode g id (fun n => { n with attrs := n.attrs.filter (fun kv => kv.1 ≠ name) })

/-- `NodeRef::CopyAttributes(other)`: the destination takes the source
node's attribute map. -/
def copyAttributes (g : Graph) (dstId srcId : Nat) : Graph :=
  match getNode g srcId with
  | none => g
  | some src => updateNode g dstId (fun n => { n with attrs := src.attrs })

/-- Fresh value name (the counter keeps it distinct from all names the
graph capability itself generated). -/
def freshValueName (c : Nat) (k : Nat) : String :=
  "$v" ++ toString c ++ "_" ++ toString k

/-- Modelled from the spec: `add_node(op_type, inputs, num_outputs,
domain?)` — a fresh node with fresh output names, appended to the node
list.  Returns the created node's snapshot. -/
def addNode (g : Graph) (op : String) (inputs : List String) (numOutputs : Nat)
    (domain : String) : Node × Graph :=
  let n : Node :=
    { id := g.fresh, opType := op, domain := domain, inputs := inputs
      outputs := (List.range numOutputs).map (freshValueName g.fresh), attrs := [] }
  (n, { g with nodes := g.nodes ++ [n], fresh := g.fresh + 1 })

/-- Modelled from the spec: `add_initializer_i64(shape, data)`. -/
def addInitializerInt64 (g : Graph) (shape data : List Int) : String × Graph :=
  let name := "$c" ++ toString g.fresh
  (name,
    { g with
      initializers := g.initializers ++ [(name, ⟨DataType.int64, shape, data⟩)]
      valueInfos := assocSet g.valueInfos name ⟨DataType.int64, some shape⟩
      fresh := g.fresh + 1 })

/-- Modelled from the spec: `add_initializer_i32(shape, data)`. -/
def addInitializerInt32 (g : Graph) (shape data : List Int) : String × Graph :=
  let name := "$c" ++ toString g.fresh
  (name,
    { g with
      initializers := g.initializers ++ [(name, ⟨DataType.int32, shape, data⟩)]
      valueInfos := assocSet g.valueInfos name ⟨DataType.int32, some shape⟩
      fresh := g.fresh + 1 })

/-- Modelled from the spec: `remove_node(n)`. -/
def removeNode (g : Graph) (id : Nat) : Graph :=
  { g with nodes := g.nodes.filter (fun n => n.id ≠ id) }

/-- Modelled from the spec: `remove_initializer(name)`. -/
def removeInitializer (g : Graph) (name : String) : Graph :=
  { g with initializers := g.initializers.filter (fun kv => kv.1 ≠ name) }

/-- Modelled from the spec: `reshape_initializer(name, shape)`; value
metadata is kept in sync by the primitive. -/
def reshapeInitializer (g : Graph) (name : String) (shape : List Int) : Graph :=
  let g := { g with
    initializers := g.initializers.map
      (fun kv => if kv.1 = name then (kv.1, { kv.2 with shape := shape }) else kv) }
  updateValueInfo g name (fun vi => setShapeInfo vi (some shape))

/-- Row-major strides of a shape. -/
def shapeStrides : List Int → List Int
  | [] => []
  | _ :: rest =>
    let s := shapeStrides rest
    (rest.foldl (fun a d => a * d) 1) :: s

/-- Flat index of a multi-index under a shape. -/
def flatIndex (strides : List Int) (idx : List Int) : Int :=
  (List.zip strides idx).foldl (fun a sd => a + sd.1 * sd.2) 0

/-- Multi-index of a flat index under a shape. -/
def multiIndex : List Int → Int → List Int
  | [], _ => []
  | _ :: rest, i =>
    let inner := rest.foldl (fun a d => a * d) 1
    (i / inner) :: multiIndex rest (i % inner)

/-- Data shuffle of a dense tensor transposition: output multi-index `o`
reads input multi-index `o ∘ perm⁻¹`, i.e. input index `j` at position
`perm[k] = j`. -/
def transposeTensorData (shape data perm : List Int) : List Int :=
  let newShape := perm.map (fun p => shape.getD p.toNat 0)
  let n := (newShape.foldl (fun a d => a * d) 1).toNat
  (List.range n).map (fun o =>
    let oIdx := multiIndex newShape (o : Int)
    let iIdx := invertPerm perm |>.map (fun p => oIdx.getD p.toNat 0)
    data.getD (flatIndex (shapeStrides shape) iIdx).toNat 0)

/-- Modelled from the spec: `transpose_initializer(name, perm)` mutates
the constant data in place and keeps value metadata in sync. -/
def transposeInitializer (g : Graph) (name : String) (perm : List Int) : Graph :=
  let g := { g with
    initializers := g.initializers.map
      (fun kv =>
        if kv.1 = name then
          (kv.1, { kv.2 with
            shape := perm.map (fun p => kv.2.shape.getD p.toNat 0)
            data := transposeTensorData kv.2.shape kv.2.data perm })
        else kv) }
  match getConstant g name with
  | some t => updateValueInfo g name (fun vi => setShapeInfo vi (some t.shape))
  | none => g

/-- Modelled from the spec: `move_output(src, i, dst, j)` — the name of
`src.outputs[i]` moves to `dst.outputs[j]`; `src.outputs[i]` becomes a
fresh value with no metadata yet. -/
def moveOutput (g : Graph) (srcId : Nat) (i : Nat) (dstId : Nat) (j : Nat) : Graph :=
  match getNode g srcId with
  | none => g
  | some src =>
    let name := src.outputs.getD i ""
    let fv := freshValueName g.fresh 0
    let g := updateNode g dstId (fun n => { n with outputs := n.outputs.set j name })
    let g := updateNode g srcId (fun n => { n with outputs := n.outputs.set i fv })
    { g with fresh := g.fresh + 1 }

/-- Live read of a node's input names (empty when the reference dangles). -/
def nodeInputsD (g : Graph) (id : Nat) : List String :=
  ((getNode g id).map (·.inputs)).getD []

/-- Live read of a node's output names. -/
def nodeOutputsD (g : Graph) (id : Nat) : List String :=
  ((getNode g id).map (·.outputs)).getD []

/-- Live attribute read of an integer-list attribute. -/
def getAttrInts (g : Graph) (id : Nat) (name : String) : Option (List Int) :=
  (getNode g id).bind (fun n => n.getAttributeInts name)

/-- Live attribute read with default. -/
def getAttrIntDefault (g : Graph) (id : Nat) (name : String) (d : Int) : Int :=
  match getNode g id with
  | none => d
  | some n => n.getAttributeIntDefault name d

/-- Per-domain opset lookup (`Graph::Opset`). -/
def graphOpset (g : Graph) (domain : String) : Option Int :=
  (g.opsets.find? (fun kv => kv.1 = domain)).map (·.2)

/-! ### Core helpers -/

/-- `ReplaceValueReferences`: rewrite every input slot of the listed
nodes (here by id) that references `oldV` to `newV`. -/
def replaceValueReferences (g : Graph) (ids : List Nat) (oldV newV : String) : Graph :=
  { g with nodes := g.nodes.map (fun n =>
      if n.id ∈ ids then
        { n with inputs := n.inputs.map (fun v => if v = oldV then newV else v) }
      else n) }

/-- `MakeNode1Attr`: one-input node with a single int-list attribute. -/
def makeNode1Attr (g : Graph) (op input attrName : String) (attrVal : List Int) :
    Node × Graph :=
  let (n, g) := addNode g op [input] 1 ""
  (n, setAttributeInts g n.id attrName attrVal)

/-- `MakeTranspose` (does not update output `ValueInfo`). -/
def makeTranspose (g : Graph) (input : String) (perm : List Int) : Node × Graph :=
  makeNode1Attr g "Transpose" input "perm" perm

/-- `MakeSqueezeOrUnsqueeze`: axes as attribute below opset 13, as an
int64 initializer input from opset 13. -/
def makeSqueezeOrUnsqueeze (opset : Int) (g : Graph) (op input : String)
    (axes : List Int) : Node × Graph :=
  if opset < 13 then makeNode1Attr g op input "axes" axes
  else
    let (axesInit, g) := addInitializerInt64 g [(axes.length : Int)] axes
    addNode g op [input, axesInit] 1 ""

/-- `ReadFromAttrOrInput`: attribute below the given opset, constant
input from it. -/
def readFromAttrOrInput (ctx : OptCtx) (g : Graph) (id : Nat) (attrName : String)
    (inpIndex : Nat) (opset : Int) : Option (List Int) :=
  if ctx.opset < opset then getAttrInts g id attrName
  else
    let inputs := nodeInputsD g id
    if inpIndex ≥ inputs.length ∨ inputs.getD inpIndex "" = "" then none
    else
      match getConstant g (inputs.getD inpIndex "") with
      | none => none
      | some c => some c.data

/-- Cases 3 and 4 of `TransposeInput`: reuse an existing sibling
`Transpose(perm)` if one consumes the same value, else insert a new
`Transpose(perm)` and update its metadata. -/
def transposeInputDefault (g : Graph) (nodeId i : Nat) (input : String)
    (perm : List Int) (consumers : Consumers) : Graph :=
  match consumers.nodes.find? (fun c =>
      c.opType = "Transpose" ∧ getPermAttrIfValid c = some perm) with
  | some c => setInput g nodeId i (c.outputs.getD 0 "")
  | none =>
    let (t, g) := makeTranspose g input perm
    let tOut := t.outputs.getD 0 ""
    let g := copyValueInfo g input tOut
    let g := updateValueInfo g tOut (fun vi => permuteDimsInfo vi perm)
    setInput g nodeId i tOut

/-- `TransposeInput`: replace the ith input of a node with a version
transposed under `perm`, following the four cases of the source
(constant, upstream transpose, sibling transpose, fresh transpose). -/
def transposeInput (ctx : OptCtx) (g : Graph) (nodeId i : Nat)
    (perm permInv : List Int) : Graph :=
  match getNode g nodeId with
  | none => g
  | some node =>
    let input := node.inputs.getD i ""
    let g := setInput g nodeId i ""
    let constant := getConstant g input
    let consumers := getValueConsumers g input
    if constant.isSome ∧ consumers.comprehensive then
      -- Case 1: constant with a known consumer list
      let g :=
        if consumers.nodes.length > 0 then
          let (ti, g) := makeTranspose g input permInv
          let tOut := ti.outputs.getD 0 ""
          let g := copyValueInfo g input tOut
          replaceValueReferences g (consumers.nodes.map (·.id)) input tOut
        else g
      let g := transposeInitializer g input perm
      setInput g nodeId i input
    else
      match getNodeProducingOutput g input with
      | some inpNode =>
        if inpNode.opType = "Transpose" then
          match getPermAttrIfValid inpNode with
          | some perm2 =>
            if perm2 = permInv then
              -- Case 2a: permutations cancel
              let preTransposeValue := inpNode.inputs.getD 0 ""
              let g :=
                if consumers.comprehensive ∧ consumers.nodes.length = 0 then
                  removeNode g inpNode.id
                else g
              setInput g nodeId i preTransposeValue
            else
              -- Case 2b: compose the permutations
              let permCombined := composePerm perm2 perm
              let (t, g) := makeTranspose g (inpNode.inputs.getD 0 "") permCombined
              let tOut := t.outputs.getD 0 ""
              let g := copyValueInfo g input tOut
              let g := updateValueInfo g tOut (fun vi => permuteDimsInfo vi perm)
              let g :=
                if consumers.comprehensive ∧ consumers.nodes.length = 0 then
                  removeNode g inpNode.id
                else g
              setInput g nodeId i tOut
          | none => transposeInputDefault g nodeId i input perm consumers
        else transposeInputDefault g nodeId i input perm consumers
      | none => transposeInputDefault g nodeId i input perm consumers

/-- `TransposeInputs`. -/
def transposeInputs (ctx : OptCtx) (g : Graph) (nodeId : Nat) (perm : List Int)
    (inputIndices : List Nat) : Graph :=
  let permInv := invertPerm perm
  inputIndices.foldl (fun g j => transposeInput ctx g nodeId j perm permInv) g

/-- `TransposeFirstInput`. -/
def transposeFirstInput (ctx : OptCtx) (g : Graph) (nodeId : Nat)
    (perm : List Int) : Graph :=
  transposeInputs ctx g nodeId perm [0]

/-- `TransposeOutput`: insert a `Transpose(perm)` after the ith output
keeping the outward name; returns the outward (old) output name. -/
def transposeOutput (ctx : OptCtx) (g : Graph) (nodeId i : Nat)
    (perm permInv : List Int) : String × Graph :=
  let (t, g) := makeTranspose g "" perm
  let g := moveOutput g nodeId i t.id 0
  let newOutput := (nodeOutputsD g nodeId).getD i ""
  let g := setInput g t.id 0 newOutput
  let oldOutput := (nodeOutputsD g t.id).getD 0 ""
  let g := copyValueInfo g oldOutput newOutput
  let g := updateValueInfo g newOutput (fun vi => permuteDimsInfo vi permInv)
  (oldOutput, g)

/-- `TransposeOutputs`: all outputs; skipped entirely on an identity perm. -/
def transposeOutputs (ctx : OptCtx) (g : Graph) (nodeId : Nat)
    (perm : List Int) : Graph :=
  if isIdentityPerm perm then g
  else
    let permInv := invertPerm perm
    (List.range (nodeOutputsD g nodeId).length).foldl
      (fun g j => (transposeOutput ctx g nodeId j perm permInv).2) g

/-- `HelpHandleUnsqueeze`: push the transpose through an Unsqueeze and
return the final (outward) output value. -/
def helpHandleUnsqueeze (ctx : OptCtx) (args : HArgs) (axes : List Int)
    (g : Graph) : String × Graph :=
  let g := transposeFirstInput ctx g args.nodeId args.permInv
  let newPerm := unsqueezePerm axes args.perm
  transposeOutput ctx g args.nodeId 0 newPerm (invertPerm newPerm)

/-- Case 3 of `UnsqueezeInput`: add an Unsqueeze node and, if the input
was produced by a transpose with a valid perm, immediately push that
transpose through it. -/
def unsqueezeInputDefault (ctx : OptCtx) (g : Graph) (nodeId i : Nat)
    (input : String) (axes : List Int) (inpNode : Option Node) : Graph :=
  let (sq, g) := makeSqueezeOrUnsqueeze ctx.opset g "Unsqueeze" input axes
  let sqOut := sq.outputs.getD 0 ""
  let g := copyValueInfo g input sqOut
  let g := updateValueInfo g sqOut (fun vi => unsqueezeDimsInfo vi axes)
  match inpNode with
  | some t =>
    if t.opType = "Transpose" then
      match getPermAttrIfValid t with
      | some perm =>
        let permInv := invertPerm perm
        let args : HArgs := ⟨t.id, sq.id, perm, permInv, [0]⟩
        let (newInput, g) := helpHandleUnsqueeze ctx args axes g
        setInput g nodeId i newInput
      | none => setInput g nodeId i sqOut
    else setInput g nodeId i sqOut
  | none => setInput g nodeId i sqOut

/-- Case 2 of `UnsqueezeInput`: a producing `Squeeze` with matching axes
cancels (removing it, and from opset 13 its dead axes initializer);
otherwise fall through to case 3. -/
def unsqueezeInputCase2 (ctx : OptCtx) (g : Graph) (nodeId i : Nat)
    (input : String) (axes : List Int) (consumers : Consumers)
    (inpNode : Option Node) : Graph :=
  match inpNode with
  | some sqNode =>
    if sqNode.opType = "Squeeze" then
      let squeezeAxes := readFromAttrOrInput ctx g sqNode.id "axes" 1 13
      if squeezeAxes = some axes then
        let g :=
          if consumers.comprehensive ∧ consumers.nodes.length = 0 then
            let g := removeNode g sqNode.id
            if ctx.opset ≥ 13 ∧
                ¬ hasValueConsumers g (sqNode.inputs.getD 1 "") then
              removeInitializer g (sqNode.inputs.getD 1 "")
            else g
          else g
        setInput g nodeId i (sqNode.inputs.getD 0 "")
      else unsqueezeInputDefault ctx g nodeId i input axes inpNode
    else unsqueezeInputDefault ctx g nodeId i input axes inpNode
  | none => unsqueezeInputDefault ctx g nodeId i input axes inpNode

/-- `UnsqueezeInput`: replace the ith input of a node with an unsqueezed
version, following the three cases of the source (constant reshape,
cancelling Squeeze, fresh Unsqueeze with opportunistic transpose push). -/
def unsqueezeInput (ctx : OptCtx) (g : Graph) (nodeId i : Nat)
    (axes : List Int) : Graph :=
  match getNode g nodeId with
  | none => g
  | some node =>
    let input := node.inputs.getD i ""
    let g := setInput g nodeId i ""
    let constant := getConstant g input
    let consumers := getValueConsumers g input
    match constant with
    | some c =>
      if consumers.comprehensive then
        -- Case 1: reshape the initializer, compensating existing consumers
        let g :=
          if consumers.nodes.length > 0 then
            let (sq, g) := makeSqueezeOrUnsqueeze ctx.opset g "Squeeze" input axes
            let sqOut := sq.outputs.getD 0 ""
            let g := copyValueInfo g input sqOut
            replaceValueReferences g (consumers.nodes.map (·.id)) input sqOut
          else g
        let g := reshapeInitializer g input (unsqueezeShape c.shape axes)
        setInput g nodeId i input
      else
        let inpNode := getNodeProducingOutput g input
        unsqueezeInputCase2 ctx g nodeId i input axes consumers inpNode
    | none =>
      let inpNode := getNodeProducingOutput g input
      unsqueezeInputCase2 ctx g nodeId i input axes consumers inpNode

/-- `NormalizeInputRanks`: validate every listed input's rank first
(no mutation on failure), then left-pad lower-rank inputs with unit axes. -/
def normalizeInputRanks (ctx : OptCtx) (g : Graph) (nodeId : Nat)
    (targetRank : Nat) (inputIndices : List Nat) : Bool × Graph :=
  let inputs := nodeInputsD g nodeId
  let ranksOpt : Option (List Nat) := inputIndices.mapM (fun i =>
    match (getValueInfo g (inputs.getD i "")).shape with
    | none => none
    | some s => if s.length > targetRank then none else some s.length)
  match ranksOpt with
  | none => (false, g)
  | some ranks =>
    let g := (List.zip inputIndices ranks).foldl
      (fun g ir =>
        let rankDiff := targetRank - ir.2
        if rankDiff > 0 then
          unsqueezeInput ctx g nodeId ir.1 ((List.range rankDiff).map Int.ofNat)
        else g) g
    (true, g)

/-! ### Handlers

Each handler mirrors one C++ handler.  A handler returns
`some (modified, graph)`, or `none` when the C++ execution is undefined
(an unchecked `std::optional` dereference or out-of-bounds index).
Handlers receive node references as ids and re-read node state from the
live graph after mutations, as the C++ `NodeRef&` references do. -/

/-- The type of `TransposibleInputsFn` (the graph is the explicit form of
`ctx.graph`). -/
abbrev TransposibleInputsFn := OptCtx → Graph → Node → Option (List Nat)

/-- The type of `HandlerFunction`. -/
abbrev HandlerFunction := OptCtx → HArgs → Graph → Option (Bool × Graph)

/-- `HandlerInfo`. -/
structure HandlerInfo where
  transposibleInputsFn : TransposibleInputsFn
  handlerFn : HandlerFunction
  transposesOutputs : Bool := true

/-- `HandleSimpleNodeBase`: optionally rank-normalize the transposible
inputs, then transpose them by `perm_inv` and all outputs by `perm`. -/
def handleSimpleNodeBase (ctx : OptCtx) (args : HArgs) (broadcastInputs : Bool)
    (g : Graph) : Option (Bool × Graph) :=
  let rank := args.perm.length
  if broadcastInputs then
    match normalizeInputRanks ctx g args.nodeId rank args.transposibleInputs with
    | (false, g1) => some (false, g1)
    | (true, g1) =>
      let g2 := transposeInputs ctx g1 args.nodeId args.permInv args.transposibleInputs
      some (true, transposeOutputs ctx g2 args.nodeId args.perm)
  else
    let g2 := transposeInputs ctx g args.nodeId args.permInv args.transposibleInputs
    some (true, transposeOutputs ctx g2 args.nodeId args.perm)

/-- `HandleSimpleNode`. -/
def handleSimpleNode (ctx : OptCtx) (args : HArgs) (g : Graph) : Option (Bool × Graph) :=
  handleSimpleNodeBase ctx args false g

/-- `AllInputs`. -/
def allInputs : TransposibleInputsFn := fun _ _ node =>
  some (List.range node.inputs.length)

/-- `HandleSimpleNodeBroadcast`. -/
def handleSimpleNodeBroadcast (ctx : OptCtx) (args : HArgs) (g : Graph) :
    Option (Bool × Graph) :=
  handleSimpleNodeBase ctx args true g

/-- `NonScalarInputs`: the indices of inputs with non-scalar shapes.
The source computes `info->Shape()->size()` without checking the
optional: an input with unknown shape dereferences an empty
`std::optional` (undefined behavior), modelled as `none`. -/
def nonScalarInputsGo (g : Graph) : List (Nat × String) → Option (List Nat)
  | [] => some []
  | (i, v) :: rest =>
    match (getValueInfo g v).shape with
    | none => none
    | some s =>
      if s.length ≠ 0 then (nonScalarInputsGo g rest).map (i :: ·)
      else nonScalarInputsGo g rest

/-- `NonScalarInputs`. -/
def nonScalarInputs : TransposibleInputsFn := fun _ g node =>
  nonScalarInputsGo g node.inputs.enum

/-- `FirstInput`. -/
def firstInput : TransposibleInputsFn := fun _ _ _ => some [0]

/-- `HandleSimpleNode1Inp` (the C++ declares an unused local index
vector; the base call uses `args.transposible_inputs`). -/
def handleSimpleNode1Inp (ctx : OptCtx) (args : HArgs) (g : Graph) :
    Option (Bool × Graph) :=
  handleSimpleNodeBase ctx args false g

/-- `HandleSimpleNodeWithAxis`: validate/normalize `axis`, run the base
handler, then renumber `axis` through `perm`. -/
def handleSimpleNodeWithAxis (ctx : OptCtx) (args : HArgs) (hasDefault : Bool)
    (defaultAxis : Int) (g : Graph) : Option (Bool × Graph) :=
  match getNode g args.nodeId with
  | none => none
  | some node =>
    let rank := args.perm.length
    let axisO : Option Int :=
      match node.getAttributeInt "axis" with
      | none => if hasDefault then some defaultAxis else none
      | some a => some a
    match axisO with
    | none => some (false, g)
    | some axis =>
      match normalizeAndValidateAxis axis rank with
      | none => some (false, g)
      | some axis =>
        match handleSimpleNodeBase ctx args false g with
        | none => none
        | some (false, g1) => some (false, g1)
        | some (true, g1) =>
          some (true, setAttributeInt g1 args.nodeId "axis"
            (args.perm.getD axis.toNat 0))

/-- `HandleSplit`. -/
def handleSplit (ctx : OptCtx) (args : HArgs) (g : Graph) : Option (Bool × Graph) :=
  handleSimpleNodeWithAxis ctx args true 0 g

/-- `HandleConcat`. -/
def handleConcat (ctx : OptCtx) (args : HArgs) (g : Graph) : Option (Bool × Graph) :=
  handleSimpleNodeWithAxis ctx args false 0 g

/-- `HandleSoftHardMax`: from opset 13 an axis-bearing simple node; below
opset 13 push only if the perm moves no dimension across the 2-D
coercion split point, leaving `axis` untouched. -/
def handleSoftHardMax (ctx : OptCtx) (args : HArgs) (g : Graph) :
    Option (Bool × Graph) :=
  if ctx.opset ≥ 13 then handleSimpleNodeWithAxis ctx args true (-1) g
  else
    match getNode g args.nodeId with
    | none => none
    | some node =>
      let rank := args.perm.length
      let axis := node.getAttributeIntDefault "axis" 1
      match normalizeAndValidateAxis axis rank with
      | none => some (false, g)
      | some axis =>
        if (List.range rank).all (fun i =>
            decide ((i : Int) < axis) == decide (args.perm.getD i 0 < axis)) then
          handleSimpleNode1Inp ctx args g
        else some (false, g)

/-- `HandleShape`: `Shape(Transpose(x, perm))` becomes
`Gather(Shape(x), perm)`; from opset 15 `perm` is windowed to
`[start:end]` and the attributes cleared. -/
def handleShape (ctx : OptCtx) (args : HArgs) (g : Graph) : Option (Bool × Graph) :=
  match getNode g args.nodeId with
  | none => none
  | some node0 =>
    let g := transposeInputs ctx g args.nodeId args.permInv args.transposibleInputs
    let rank := args.perm.length
    let rankInt : Int := rank
    match getNode g args.nodeId with
    | none => none
    | some node =>
      let (newPerm, g) :=
        if ctx.opset ≥ 15 then
          let start := node.getAttributeIntDefault "start" 0
          let stop := node.getAttributeIntDefault "end" rankInt
          let start := if start < 0 then start + rankInt else start
          let stop := if stop < 0 then stop + rankInt else stop
          let startIdx := (max 0 (min start rankInt)).toNat
          let stopIdx := (max 0 (min stop rankInt)).toNat
          let newPerm := (args.perm.drop startIdx).take (stopIdx - startIdx)
          let g := clearAttribute g args.nodeId "start"
          let g := clearAttribute g args.nodeId "end"
          (newPerm, g)
        else (args.perm, g)
      let (permConst, g) := addInitializerInt64 g [(newPerm.length : Int)] newPerm
      let (gather, g) := addNode g "Gather" ["", permConst] 1 ""
      let g := setAttributeInt g gather.id "axis" 0
      let g := moveOutput g args.nodeId 0 gather.id 0
      let newOutput := (nodeOutputsD g args.nodeId).getD 0 ""
      let g := setInput g gather.id 0 newOutput
      let g := copyValueInfo g ((nodeOutputsD g gather.id).getD 0 "") newOutput
      let g :=
        if newPerm.length ≠ rank then
          updateValueInfo g newOutput (fun vi => setShapeInfo vi (some [rankInt]))
        else g
      some (true, g)

/-- `HandlePad`: below opset 11 permute the `pads` attribute; from
opset 11 permute a constant `pads` input or reorder it with a `Gather`. -/
def handlePad (ctx : OptCtx) (args : HArgs) (g : Graph) : Option (Bool × Graph) :=
  match getNode g args.nodeId with
  | none => none
  | some node =>
    let rank := args.perm.length
    let opset := ctx.opset
    let step1 : Option Graph :=
      if opset < 11 then
        match node.getAttributeInts "pads" with
        | none => none
        | some pads =>
          some (setAttributeInts g args.nodeId "pads" (permutePads pads args.permInv))
      else some g
    match step1 with
    | none => some (false, g)
    | some g =>
      let g := transposeFirstInput ctx g args.nodeId args.permInv
      let g := transposeOutputs ctx g args.nodeId args.perm
      if opset < 11 then some (true, g)
      else
        let padsInput := (nodeInputsD g args.nodeId).getD 1 ""
        let padsShape : List Int := [(rank * 2 : Nat)]
        match getConstant g padsInput with
        | some padsConst =>
          let newPads := permutePads padsConst.data args.permInv
          let (newPadsConst, g) := addInitializerInt64 g padsShape newPads
          let g := setInput g args.nodeId 1 newPadsConst
          let g :=
            if ¬ hasValueConsumers g padsInput then removeInitializer g padsInput
            else g
          some (true, g)
        | none =>
          let gatherIndices := args.permInv ++ args.permInv.map (· + (rank : Int))
          let (gatherIndicesConst, g) := addInitializerInt64 g padsShape gatherIndices
          let (gather, g) := addNode g "Gather" [padsInput, gatherIndicesConst] 1 ""
          let gatherOutput := gather.outputs.getD 0 ""
          let g := copyValueInfo g padsInput gatherOutput
          let g := setAttributeInt g gather.id "axis" 0
          let g := setInput g args.nodeId 1 gatherOutput
          some (true, g)

/-- `HandleReduceOp`: with `axes` unset the output perm is `perm` under
`keepdims` and empty otherwise; with `axes` set the attribute becomes
the sorted transposed axes and the output perm is `perm` or the
squeezed perm. -/
def handleReduceOp (ctx : OptCtx) (args : HArgs) (g : Graph) : Option (Bool × Graph) :=
  match getNode g args.nodeId with
  | none => none
  | some node =>
    let keepdims := node.getAttributeIntDefault "keepdims" 1
    match node.getAttributeInts "axes" with
    | none =>
      let outPerm := if keepdims = 0 then ([] : List Int) else args.perm
      let g := transposeFirstInput ctx g args.nodeId args.permInv
      let g := transposeOutputs ctx g args.nodeId outPerm
      some (true, g)
    | some axes =>
      match normalizeAndValidateAxes axes args.perm.length with
      | none => some (false, g)
      | some axes =>
        let newAxes := sortedAxesForTransposedInput axes args.perm
        let g := setAttributeInts g args.nodeId "axes" newAxes
        let outPerm := if keepdims = 0 then squeezePerm newAxes args.perm else args.perm
        let g := transposeFirstInput ctx g args.nodeId args.permInv
        let g := transposeOutputs ctx g args.nodeId outPerm
        some (true, g)

/-- `HandleReduceSum`: below opset 13 behaves as `HandleReduceOp`; from
opset 13 the axes live in an optional constant second input. -/
def handleReduceSum (ctx : OptCtx) (args : HArgs) (g : Graph) : Option (Bool × Graph) :=
  if ctx.opset < 13 then handleReduceOp ctx args g
  else
    match getNode g args.nodeId with
    | none => none
    | some node =>
      let keepdims := node.getAttributeIntDefault "keepdims" 1 ≠ 0
      let inputs := node.inputs
      let axesConst : Option Tensor :=
        if inputs.length < 2 ∨ inputs.getD 1 "" = "" then none
        else getConstant g (inputs.getD 1 "")
      let emptyAxes : Bool :=
        if inputs.length < 2 ∨ inputs.getD 1 "" = "" then true
        else
          match axesConst with
          | some c => c.data.length = 0
          | none => false
      if emptyAxes then
        let noopWithEmptyAxes := node.getAttributeIntDefault "noop_with_empty_axes" 0 ≠ 0
        let g := transposeFirstInput ctx g args.nodeId args.permInv
        let g :=
          if noopWithEmptyAxes ∨ keepdims then
            transposeOutputs ctx g args.nodeId args.perm
          else g
        some (true, g)
      else
        match axesConst with
        | none => some (false, g)
        | some c =>
          match normalizeAndValidateAxes c.data args.perm.length with
          | none => some (false, g)
          | some axes =>
            let newAxes := sortedAxesForTransposedInput axes args.perm
            let (newAxesConst, g) := addInitializerInt64 g [(newAxes.length : Int)] newAxes
            let axesInp := inputs.getD 1 ""
            let g := setInput g args.nodeId 1 newAxesConst
            let g :=
              if ¬ hasValueConsumers g axesInp then removeInitializer g axesInp else g
            let g := transposeFirstInput ctx g args.nodeId args.permInv
            let g :=
              if keepdims then transposeOutputs ctx g args.nodeId args.perm
              else transposeOutputs ctx g args.nodeId (squeezePerm newAxes args.perm)
            some (true, g)

/-- `HandleSqueeze`: requires known, valid axes; writes back the sorted
transposed axes and transposes the output by the squeezed perm. -/
def handleSqueeze (ctx : OptCtx) (args : HArgs) (g : Graph) : Option (Bool × Graph) :=
  match readFromAttrOrInput ctx g args.nodeId "axes" 1 13 with
  | none => some (false, g)
  | some axes =>
    match normalizeAndValidateAxes axes args.perm.length with
    | none => some (false, g)
    | some axes =>
      let newAxes := sortedAxesForTransposedInput axes args.perm
      let g :=
        if ctx.opset < 13 then setAttributeInts g args.nodeId "axes" newAxes
        else
          let axesInp := (nodeInputsD g args.nodeId).getD 1 ""
          let (newAxesConst, g) := addInitializerInt64 g [(newAxes.length : Int)] newAxes
          let g := setInput g args.nodeId 1 newAxesConst
          if ¬ hasValueConsumers g axesInp then removeInitializer g axesInp else g
      let g := transposeFirstInput ctx g args.nodeId args.permInv
      let g := transposeOutputs ctx g args.nodeId (squeezePerm newAxes args.perm)
      some (true, g)

/-- `HandleUnsqueeze`: requires known, valid axes; leaves them unchanged
and transposes the output by the unsqueezed perm. -/
def handleUnsqueeze (ctx : OptCtx) (args : HArgs) (g : Graph) : Option (Bool × Graph) :=
  match readFromAttrOrInput ctx g args.nodeId "axes" 1 13 with
  | none => some (false, g)
  | some axes =>
    match normalizeAndValidateAxes axes (args.perm.length + axes.length) with
    | none => some (false, g)
    | some axes =>
      let (_out, g) := helpHandleUnsqueeze ctx args axes g
      some (true, g)

/-- `HandleQuantizeDequantizeLinear`: from opset 13 with non-scalar
scale/zero-point the `axis` is renumbered through `perm`; then an
elementwise push. -/
def handleQuantizeDequantizeLinear (ctx : OptCtx) (args : HArgs) (g : Graph) :
    Option (Bool × Graph) :=
  match getNode g args.nodeId with
  | none => none
  | some node =>
    let rank := args.perm.length
    let step : Option Graph :=
      if ctx.opset ≥ 13 then
        let inpShape := (getValueInfo g (node.inputs.getD 1 "")).shape
        let scalarParams : Bool :=
          match inpShape with
          | some s => s.length = 0
          | none => false
        if ¬ scalarParams then
          let axis := node.getAttributeIntDefault "axis" 1
          match normalizeAndValidateAxis axis rank with
          | none => none
          | some axis =>
            some (setAttributeInt g args.nodeId "axis" (args.perm.getD axis.toNat 0))
        else some g
      else some g
    match step with
    | none => some (false, g)
    | some g =>
      let g := transposeFirstInput ctx g args.nodeId args.permInv
      let g := transposeOutputs ctx g args.nodeId args.perm
      some (true, g)

/-- `HandleArgMinMax`: renumber `axis` through `perm`; output perm is
`perm` under `keepdims` and the squeezed perm otherwise. -/
def handleArgMinMax (ctx : OptCtx) (args : HArgs) (g : Graph) : Option (Bool × Graph) :=
  match getNode g args.nodeId with
  | none => none
  | some node =>
    let rank := args.perm.length
    let keepdims := node.getAttributeIntDefault "keepdims" 1
    let axis := node.getAttributeIntDefault "axis" 0
    match normalizeAndValidateAxis axis rank with
    | none => some (false, g)
    | some axis =>
      let newAxis := args.perm.getD axis.toNat 0
      let newAxes : List Int := [newAxis]
      let g := setAttributeInt g args.nodeId "axis" newAxis
      let g := transposeInputs ctx g args.nodeId args.permInv args.transposibleInputs
      let g :=
        if keepdims ≠ 0 then transposeOutputs ctx g args.nodeId args.perm
        else transposeOutputs ctx g args.nodeId (squeezePerm newAxes args.perm)
      some (true, g)

/-- Wrap of `(int32_t)v` used by `AddIntInitializerMatchingDtype`. -/
def int32Wrap (v : Int) : Int :=
  (v + 2 ^ 31) % 2 ^ 32 - 2 ^ 31

/-- `AddIntInitializerMatchingDtype`. -/
def addIntInitializerMatchingDtype (g : Graph) (values : List Int)
    (dtype : DataType) : String × Graph :=
  if dtype = DataType.int32 then
    addInitializerInt32 g [(values.length : Int)] (values.map int32Wrap)
  else addInitializerInt64 g [(values.length : Int)] values

/-- `TensorIntData` (the model stores either width as `List Int`). -/
def tensorIntData (t : Tensor) (dtype : DataType) : List Int :=
  t.data

/-- `HandleSlice`.  Below opset 10 a missing `axes` attribute derives the
axes from the `starts` attribute, which the source dereferences without
checking it is set (undefined behavior when unset, modelled as `none`).
From opset 10 the axes input must be absent (derived from the shape of
`starts`) or constant. -/
def handleSlice (ctx : OptCtx) (args : HArgs) (g : Graph) : Option (Bool × Graph) :=
  match getNode g args.nodeId with
  | none => none
  | some node =>
    let rank := args.perm.length
    if ctx.opset < 10 then
      let axesO : Option (List Int) :=
        match node.getAttributeInts "axes" with
        | some a => some a
        | none =>
          (node.getAttributeInts "starts").map (fun st =>
            (List.range st.length).map Int.ofNat)
      match axesO with
      | none => none
      | some axes =>
        match normalizeAndValidateAxes axes rank with
        | none => some (false, g)
        | some axes =>
          let newAxes := axesForTransposedInput axes args.perm
          let g := setAttributeInts g args.nodeId "axes" newAxes
          let g := transposeFirstInput ctx g args.nodeId args.permInv
          let g := transposeOutputs ctx g args.nodeId args.perm
          some (true, g)
    else
      let inputs := node.inputs
      if inputs.length < 4 ∨ inputs.getD 3 "" = "" then
        -- Case 1: axes input missing; derive from the shape of starts
        let startsInfo := getValueInfo g (inputs.getD 1 "")
        let intDtype := startsInfo.dtype
        match startsInfo.shape with
        | none => some (false, g)
        | some ss =>
          if ss.length ≠ 1 ∨ ss.getD 0 0 < 0 then some (false, g)
          else
            let ndims := (ss.getD 0 0).toNat
            let newAxes := (List.range ndims).map (fun i => args.perm.getD i 0)
            let (newAxesConst, g) := addIntInitializerMatchingDtype g newAxes intDtype
            let g := setInput g args.nodeId 3 newAxesConst
            let g := transposeFirstInput ctx g args.nodeId args.permInv
            let g := transposeOutputs ctx g args.nodeId args.perm
            some (true, g)
      else
        -- Case 2: axes input provided; must be constant
        let axesInp := inputs.getD 3 ""
        match getConstant g axesInp with
        | none => some (false, g)
        | some axesConst =>
          let intDtype := axesConst.dtype
          let axes := tensorIntData axesConst intDtype
          match normalizeAndValidateAxes axes rank with
          | none => some (false, g)
          | some axes =>
            let newAxes := axesForTransposedInput axes args.perm
            let (newAxesConst, g) := addIntInitializerMatchingDtype g newAxes intDtype
            let g := setInput g args.nodeId 3 newAxesConst
            let g :=
              if ¬ hasValueConsumers g axesInp then removeInitializer g axesInp else g
            let g := transposeFirstInput ctx g args.nodeId args.permInv
            let g := transposeOutputs ctx g args.nodeId args.perm
            some (true, g)

/-- `HandleTile`: permute a constant `repeats` input, or reorder a
computed one with a `Gather` on `perm_inv`. -/
def handleTile (ctx : OptCtx) (args : HArgs) (g : Graph) : Option (Bool × Graph) :=
  match getNode g args.nodeId with
  | none => none
  | some node =>
    let rank := args.perm.length
    let permShape : List Int := [(rank : Int)]
    let repeatsInp := node.inputs.getD 1 ""
    let g :=
      match getConstant g repeatsInp with
      | some repeatsConst =>
        let newRepeats := args.permInv.map (fun p => repeatsConst.data.getD p.toNat 0)
        let (newRepeatsConst, g) := addInitializerInt64 g permShape newRepeats
        let g := setInput g args.nodeId 1 newRepeatsConst
        if ¬ hasValueConsumers g repeatsInp then removeInitializer g repeatsInp else g
      | none =>
        let (permInvConst, g) := addInitializerInt64 g permShape args.permInv
        let (gather, g) := addNode g "Gather" [repeatsInp, permInvConst] 1 ""
        let gatherOutput := gather.outputs.getD 0 ""
        let g := copyValueInfo g repeatsInp gatherOutput
        setInput g args.nodeId 1 gatherOutput
    let g := transposeFirstInput ctx g args.nodeId args.permInv
    let g := transposeOutputs ctx g args.nodeId args.perm
    some (true, g)

/-- `HandleTranspose`: cancellation when the second perm is the inverse
of the first, composition (`ComposePerm(perm, node_perm)`) otherwise;
the upstream transpose is removed when it becomes dead. -/
def handleTranspose (ctx : OptCtx) (args : HArgs) (g : Graph) : Option (Bool × Graph) :=
  match getNode g args.nodeId, getNode g args.transposeId with
  | some node, some transpose =>
    match getPermAttrIfValid node with
    | none => some (false, g)
    | some nodePerm =>
      let transposeInputVal := transpose.inputs.getD 0 ""
      let nodeOutput := node.outputs.getD 0 ""
      let g :=
        if args.permInv = nodePerm then
          -- Case 1: permutations cancel
          let consumers := getValueConsumers g nodeOutput
          let g :=
            if consumers.comprehensive then
              replaceValueReferences g (consumers.nodes.map (·.id))
                nodeOutput transposeInputVal
            else
              let transposeInpConsumers := getValueConsumers g transposeInputVal
              match getNodeProducingOutput g transposeInputVal with
              | some transposeInpNode =>
                if transposeInpConsumers.comprehensive then
                  let g := setInput g args.nodeId 0 ""
                  let g := replaceValueReferences g
                    (transposeInpConsumers.nodes.map (·.id)) transposeInputVal nodeOutput
                  let idx := (transposeInpNode.outputs.findIdx
                    (fun o => o = transposeInputVal))
                  moveOutput g args.nodeId 0 transposeInpNode.id idx
                else
                  let (identity, g) := addNode g "Identity" [""] 1 ""
                  let g := moveOutput g args.nodeId 0 identity.id 0
                  setInput g identity.id 0 transposeInputVal
              | none =>
                let (identity, g) := addNode g "Identity" [""] 1 ""
                let g := moveOutput g args.nodeId 0 identity.id 0
                setInput g identity.id 0 transposeInputVal
          removeNode g args.nodeId
        else
          -- Case 2: compose the permutations
          let newPerm := composePerm args.perm nodePerm
          let g := setAttributeInts g args.nodeId "perm" newPerm
          setInput g args.nodeId 0 transposeInputVal
      let g :=
        if ¬ hasValueConsumers g ((nodeOutputsD g args.transposeId).getD 0 "") then
          removeNode g args.transposeId
        else g
      some (true, g)
  | _, _ => none

/-- `HandleQLinearConcat`. -/
def handleQLinearConcat (ctx : OptCtx) (args : HArgs) (g : Graph) :
    Option (Bool × Graph) :=
  handleSimpleNodeWithAxis ctx args false 0 g

/-- `QLinearConcatInputs`: the data slots `2, 5, 8, …`. -/
def qLinearConcatInputs : TransposibleInputsFn := fun _ _ node =>
  some ((List.range node.inputs.length).filter (fun i => 2 ≤ i ∧ (i - 2) % 3 = 0))

/-- `HandleQLinearBinaryOp`. -/
def handleQLinearBinaryOp (ctx : OptCtx) (args : HArgs) (g : Graph) :
    Option (Bool × Graph) :=
  handleSimpleNodeBase ctx args true g

/-- `QLinearBinaryOpInputs`: the data tensors `A` and `B`. -/
def qLinearBinaryOpInputs : TransposibleInputsFn := fun _ _ _ => some [0, 3]

/-- `HandleQLinearPoolOp`: only for the channel-last/first perm matching
the `channels_last` attribute, which it flips. -/
def handleQLinearPoolOp (ctx : OptCtx) (args : HArgs) (g : Graph) :
    Option (Bool × Graph) :=
  match getNode g args.nodeId with
  | none => none
  | some node =>
    let channelsLast := node.getAttributeIntDefault "channels_last" 1
    let rank := args.perm.length
    if rank < 2 then some (false, g)
    else
      match channelLastToFirstPerm rank with
      | none => none
      | some p =>
        if (channelsLast = 0 ∧ args.perm = p) ∨ (channelsLast ≠ 0 ∧ args.permInv = p) then
          let g := setAttributeInt g args.nodeId "channels_last" (1 - channelsLast)
          let g := transposeFirstInput ctx g args.nodeId args.permInv
          let g := transposeOutputs ctx g args.nodeId args.perm
          some (true, g)
        else some (false, g)

/-- `HandleMaxPool`: replace with `NhwcMaxPool` when the indices output
is absent, the dtype is 8-bit and the perm is the channel-last-to-first
perm. -/
def handleMaxPool (ctx : OptCtx) (args : HArgs) (g : Graph) : Option (Bool × Graph) :=
  match getNode g args.nodeId with
  | none => none
  | some node =>
    let outputs := node.outputs
    if outputs.length = 2 ∧ outputs.getD 1 "" ≠ "" then some (false, g)
    else
      let dtype := (getValueInfo g (outputs.getD 0 "")).dtype
      if dtype ≠ DataType.uint8 ∧ dtype ≠ DataType.int8 then some (false, g)
      else
        let rank := args.perm.length
        match channelLastToFirstPerm rank with
        | none => none
        | some clf =>
          if args.perm ≠ clf then some (false, g)
          else
            let (newNode, g) := addNode g "NhwcMaxPool" node.inputs 1 "com.microsoft"
            let g := copyAttributes g newNode.id args.nodeId
            let g := clearAttribute g newNode.id "storage_order"
            let g := moveOutput g args.nodeId 0 newNode.id 0
            let g := removeNode g args.nodeId
            let g := transposeFirstInput ctx g newNode.id args.permInv
            let g := transposeOutputs ctx g newNode.id args.perm
            some (true, g)

/-! ### Dispatch tables -/

/-- `simple_node_handler`. -/
def simpleNodeHandler : HandlerInfo := ⟨allInputs, handleSimpleNode, true⟩

/-- `broadcast_node_handler`. -/
def broadcastNodeHandler : HandlerInfo := ⟨nonScalarInputs, handleSimpleNodeBroadcast, true⟩

/-- `node_1_inp_handler`. -/
def node1InpHandler : HandlerInfo := ⟨firstInput, handleSimpleNode1Inp, true⟩

/-- `split_handler`. -/
def splitHandler : HandlerInfo := ⟨firstInput, handleSplit, true⟩

/-- `concat_handler`. -/
def concatHandler : HandlerInfo := ⟨allInputs, handleConcat, true⟩

/-- `soft_hard_max_handler`. -/
def softHardMaxHandler : HandlerInfo := ⟨firstInput, handleSoftHardMax, true⟩

/-- `shape_handler` (does not transpose outputs). -/
def shapeHandler : HandlerInfo := ⟨firstInput, handleShape, false⟩

/-- `pad_handler`. -/
def padHandler : HandlerInfo := ⟨firstInput, handlePad, true⟩

/-- `reduce_op_handler`. -/
def reduceOpHandler : HandlerInfo := ⟨firstInput, handleReduceOp, true⟩

/-- `reduce_sum_handler`. -/
def reduceSumHandler : HandlerInfo := ⟨firstInput, handleReduceSum, true⟩

/-- `squeeze_handler`. -/
def squeezeHandler : HandlerInfo := ⟨firstInput, handleSqueeze, true⟩

/-- `unsqueeze_handler`. -/
def unsqueezeHandler : HandlerInfo := ⟨firstInput, handleUnsqueeze, true⟩

/-- `quantize_dequantize_linear_handler`. -/
def quantizeDequantizeLinearHandler : HandlerInfo :=
  ⟨firstInput, handleQuantizeDequantizeLinear, true⟩

/-- `arg_min_max_handler`. -/
def argMinMaxHandler : HandlerInfo := ⟨firstInput, handleArgMinMax, true⟩

/-- `slice_handler`. -/
def sliceHandler : HandlerInfo := ⟨firstInput, handleSlice, true⟩

/-- `tile_handler`. -/
def tileHandler : HandlerInfo := ⟨firstInput, handleTile, true⟩

/-- `transpose_handler` (does not transpose outputs). -/
def transposeHandler : HandlerInfo := ⟨firstInput, handleTranspose, false⟩

/-- `q_linear_concat_handler`. -/
def qLinearConcatHandler : HandlerInfo := ⟨qLinearConcatInputs, handleQLinearConcat, true⟩

/-- `q_linear_binary_op_handler`. -/
def qLinearBinaryOpHandler : HandlerInfo := ⟨qLinearBinaryOpInputs, handleQLinearBinaryOp, true⟩

/-- `q_linear_pool_op_handler`. -/
def qLinearPoolOpHandler : HandlerInfo := ⟨firstInput, handleQLinearPoolOp, true⟩

/-- `max_pool_op_handler`. -/
def maxPoolOpHandler : HandlerInfo := ⟨firstInput, handleMaxPool, true⟩

/-- `handler_map` (the standard-domain table), in source order. -/
def handlerMapList : List (String × HandlerInfo) := [
  ("Cast", simpleNodeHandler), ("Exp", simpleNodeHandler), ("Identity", simpleNodeHandler),
  ("LeakyRelu", simpleNodeHandler), ("Log", simpleNodeHandler), ("Reciprocal", simpleNodeHandler),
  ("Relu", simpleNodeHandler), ("Sigmoid", simpleNodeHandler), ("Sqrt", simpleNodeHandler),
  ("Tanh", simpleNodeHandler), ("Abs", simpleNodeHandler), ("Not", simpleNodeHandler),
  ("Ceil", simpleNodeHandler), ("Floor", simpleNodeHandler), ("Neg", simpleNodeHandler),
  ("Erf", simpleNodeHandler), ("HardSigmoid", simpleNodeHandler), ("Round", simpleNodeHandler),
  ("IsInf", simpleNodeHandler), ("IsNaN", simpleNodeHandler),
  ("Selu", simpleNodeHandler), ("Shrink", simpleNodeHandler), ("Sign", simpleNodeHandler),
  ("Softplus", simpleNodeHandler), ("Softsign", simpleNodeHandler),
  ("ThresholdedRelu", simpleNodeHandler),
  ("Celu", simpleNodeHandler), ("HardSwish", simpleNodeHandler),
  ("Sin", simpleNodeHandler), ("Cos", simpleNodeHandler), ("Tan", simpleNodeHandler),
  ("Sinh", simpleNodeHandler), ("Cosh", simpleNodeHandler),
  ("Asin", simpleNodeHandler), ("Acos", simpleNodeHandler), ("Atan", simpleNodeHandler),
  ("Asinh", simpleNodeHandler), ("Acosh", simpleNodeHandler), ("Atanh", simpleNodeHandler),
  ("Add", broadcastNodeHandler), ("Max", broadcastNodeHandler), ("Min", broadcastNodeHandler),
  ("Mul", broadcastNodeHandler), ("Sub", broadcastNodeHandler), ("Div", broadcastNodeHandler),
  ("And", broadcastNodeHandler), ("Or", broadcastNodeHandler), ("Xor", broadcastNodeHandler),
  ("Mod", broadcastNodeHandler), ("PRelu", broadcastNodeHandler), ("BitShift", broadcastNodeHandler),
  ("Equal", broadcastNodeHandler), ("Greater", broadcastNodeHandler), ("Less", broadcastNodeHandler),
  ("GreaterOrEqual", broadcastNodeHandler), ("LessOrEqual", broadcastNodeHandler),
  ("Mean", broadcastNodeHandler), ("Sum", broadcastNodeHandler), ("Pow", broadcastNodeHandler),
  ("Where", broadcastNodeHandler),
  ("Clip", node1InpHandler), ("CastLike", node1InpHandler),
  ("Transpose", transposeHandler),
  ("Concat", concatHandler),
  ("Split", splitHandler),
  ("Shape", shapeHandler),
  ("Pad", padHandler),
  ("ReduceSum", reduceSumHandler),
  ("ReduceLogSum", reduceOpHandler), ("ReduceLogSumExp", reduceOpHandler),
  ("ReduceMax", reduceOpHandler),
  ("ReduceMean", reduceOpHandler), ("ReduceMin", reduceOpHandler),
  ("ReduceProd", reduceOpHandler),
  ("ReduceSumSquare", reduceOpHandler), ("ReduceL1", reduceOpHandler),
  ("ReduceL2", reduceOpHandler),
  ("ArgMin", argMinMaxHandler), ("ArgMax", argMinMaxHandler),
  ("Squeeze", squeezeHandler),
  ("Unsqueeze", unsqueezeHandler),
  ("Slice", sliceHandler),
  ("Tile", tileHandler),
  ("Softmax", softHardMaxHandler), ("Hardmax", softHardMaxHandler),
  ("LogSoftmax", softHardMaxHandler),
  ("QuantizeLinear", quantizeDequantizeLinearHandler),
  ("DequantizeLinear", quantizeDequantizeLinearHandler)]

/-- `extended_handler_map` (consulted only with extended ops allowed). -/
def extendedHandlerMapList : List (String × HandlerInfo) := [
  ("com.microsoft.QLinearReduceMean", reduceOpHandler),
  ("com.microsoft.QLinearSigmoid", node1InpHandler),
  ("com.microsoft.QLinearLeakyRelu", node1InpHandler),
  ("com.microsoft.QLinearConcat", qLinearConcatHandler),
  ("com.microsoft.QLinearAdd", qLinearBinaryOpHandler),
  ("com.microsoft.QLinearMul", qLinearBinaryOpHandler),
  ("com.microsoft.QLinearAveragePool", qLinearPoolOpHandler),
  ("com.microsoft.QLinearGlobalAveragePool", qLinearPoolOpHandler),
  ("MaxPool", maxPoolOpHandler)]

/-- Association-list lookup used for both tables. -/
def lookupHandlerEntry : List (String × HandlerInfo) → String → Option HandlerInfo
  | [], _ => none
  | (k, v) :: rest, key => if k = key then some v else lookupHandlerEntry rest key

/-- `GetHandler`: key is the op type in the default/`ai.onnx` domains,
`com.microsoft.` plus the op type in the vendor domain, nothing else;
the extended table is consulted only when extended ops are allowed. -/
def getHandler (node : Node) (allowExtendedOps : Bool) : Option HandlerInfo :=
  let key? : Option String :=
    if node.domain = "" ∨ node.domain = "ai.onnx" then some node.opType
    else if node.domain = "com.microsoft" then some ("com.microsoft." ++ node.opType)
    else none
  match key? with
  | none => none
  | some key =>
    match lookupHandlerEntry handlerMapList key with
    | some info => some info
    | none =>
      if allowExtendedOps then lookupHandlerEntry extendedHandlerMapList key
      else none

/-! ### Optimization heuristics -/

/-- `EstimateValueRank`: count of non-1 dims; 5 when the shape is unknown. -/
def estimateValueRank (g : Graph) (input : String) : Int :=
  match (getValueInfo g input).shape with
  | none => 5
  | some s => ((s.filter (fun d => d ≠ 1)).length : Int)

/-- `CanLikelyRemoveTranspose`: all consumers of the transpose's output
are known and have handlers. -/
def canLikelyRemoveTranspose (g : Graph) (transpose : Node) : Bool :=
  let consumers := getValueConsumers g (transpose.outputs.getD 0 "")
  consumers.comprehensive && consumers.nodes.all (fun n => (getHandler n true).isSome)

/-- `EstimateTransposeValueCost`: 0 for constants; minus the rank for a
cancelling transpose that can likely be removed; 0 for another
transpose with a valid perm; else plus the rank. -/
def estimateTransposeValueCost (g : Graph) (input : String)
    (permInv : List Int) : Int :=
  match getConstant g input with
  | some _ => 0
  | none =>
    match getNodeProducingOutput g input with
    | some n =>
      if n.opType = "Transpose" then
        match getPermAttrIfValid n with
        | some perm2 =>
          if perm2 = permInv ∧ canLikelyRemoveTranspose g n then
            -(estimateValueRank g input)
          else 0
        | none => estimateValueRank g input
      else estimateValueRank g input
    | none => estimateValueRank g input

/-- `EstimateTransposeInputsCost`: sum over the given input indices. -/
def estimateTransposeInputsCost (g : Graph) (node : Node) (permInv : List Int)
    (inputIndices : List Nat) : Int :=
  (inputIndices.map (fun j =>
    estimateTransposeValueCost g (node.inputs.getD j "") permInv)).sum

/-! ### Driver -/

/-- The cost computed by `ProcessTranspose` before the `cost >= 0`
rejection: the inputs cost, plus the maximum output rank when outputs
will be transposed and no output is on a path to a downstream
transpose. -/
def processTransposeCost (g : Graph) (node : Node) (info : HandlerInfo)
    (perm : List Int) (inputIndices : List Nat) (oltt : List String) : Int :=
  let cost := estimateTransposeInputsCost g node perm inputIndices
  if cost < 0 ∧ info.transposesOutputs then
    let outCost := node.outputs.foldl (fun oc out => max oc (estimateValueRank g out)) 0
    let hasOutputLeadingToTranspose := node.outputs.any (fun out => out ∈ oltt)
    if ¬ hasOutputLeadingToTranspose then cost + outCost else cost
  else cost

/-- The `ProcessTranspose` gate after the eligible-input check: `Transpose`
and `MaxPool` nodes (and `skip_cost_check`) bypass the cost estimate;
all other nodes require a strictly negative cost. -/
def processTransposeGateAccepts (ctx : OptCtx) (g : Graph) (node : Node)
    (info : HandlerInfo) (perm : List Int) (inputIndices : List Nat)
    (oltt : List String) : Bool :=
  if ¬ ctx.skipCostCheck ∧ node.opType ≠ "Transpose" ∧ node.opType ≠ "MaxPool" then
    processTransposeCost g node info perm inputIndices oltt < 0
  else true

/-- `ProcessTranspose`: find a handler, check the transpose is on an
eligible input, apply the cost gate, and invoke the handler. -/
def processTranspose (ctx : OptCtx) (transposeId nodeId : Nat) (perm : List Int)
    (transposeInputIndex : Nat) (oltt : List String) (g : Graph) :
    Option (Bool × Graph) :=
  match getNode g nodeId with
  | none => some (false, g)
  | some node =>
    match getHandler node ctx.allowExtendedOps with
    | none => some (false, g)
    | some info =>
      match info.transposibleInputsFn ctx g node with
      | none => none
      | some inputIndices =>
        if transposeInputIndex ∉ inputIndices then some (false, g)
        else if processTransposeGateAccepts ctx g node info perm inputIndices oltt then
          info.handlerFn ctx ⟨transposeId, nodeId, perm, invertPerm perm, inputIndices⟩ g
        else some (false, g)

/-- One step of the reverse-reachability pass of `OptimizeImpl`. -/
def reverseStep (ctx : OptCtx) (g : Graph) (acc : List String) (node : Node) :
    Option (List String) :=
  if node.opType = "Transpose" then some (node.inputs.getD 0 "" :: acc)
  else
    node.outputs.foldlM (fun acc out =>
      if out ∈ acc then
        match getHandler node ctx.allowExtendedOps with
        | some info =>
          if info.transposesOutputs then
            match info.transposibleInputsFn ctx g node with
            | none => none
            | some idxs =>
              some (idxs.foldl (fun acc j => node.inputs.getD j "" :: acc) acc)
          else some acc
        | none => some acc
      else some acc) acc

/-- The reverse-reachability pass: walk the node snapshot in reverse
topological order collecting `outputs_leading_to_transpose`. -/
def reversePass (ctx : OptCtx) (g : Graph) : Option (List String) :=
  g.nodes.reverse.foldlM (reverseStep ctx g) []

/-- The per-node input scan of the forward pass; stops at the first
input whose transpose gets pushed (the C++ `break`). -/
def forwardInputs (ctx : OptCtx) (oltt : List String) (nodeId : Nat) :
    List (Nat × String) → Graph → Option (Bool × Graph)
  | [], g => some (false, g)
  | (j, inp) :: rest, g =>
    if inp = "" then forwardInputs ctx oltt nodeId rest g
    else
      match getNodeProducingOutput g inp with
      | some t =>
        if t.opType = "Transpose" then
          match getPermAttrIfValid t with
          | some perm =>
            match processTranspose ctx t.id nodeId perm j oltt g with
            | none => none
            | some (true, g1) => some (true, g1)
            | some (false, g1) => forwardInputs ctx oltt nodeId rest g1
          | none => forwardInputs ctx oltt nodeId rest g
        else forwardInputs ctx oltt nodeId rest g
      | none => forwardInputs ctx oltt nodeId rest g

/-- The forward pass over the node snapshot (nodes removed before their
visit are skipped, as the spec says is safe). -/
def forwardNodes (ctx : OptCtx) (oltt : List String) :
    List Nat → Bool → Graph → Option (Bool × Graph)
  | [], changed, g => some (changed, g)
  | nodeId :: rest, changed, g =>
    let inputs := nodeInputsD g nodeId
    match forwardInputs ctx oltt nodeId inputs.enum g with
    | none => none
    | some (c, g1) => forwardNodes ctx oltt rest (changed || c) g1

/-- `OptimizeImpl`: reverse-reachability pass then forward rewrite pass. -/
def optimizeImpl (ctx : OptCtx) (g : Graph) : Option (Bool × Graph) :=
  let nodeIds := g.nodes.map (·.id)
  match reversePass ctx g with
  | none => none
  | some oltt => forwardNodes ctx oltt nodeIds false g

/-- The primary-domain opset: domain `""` first, then `"ai.onnx"`. -/
def primaryOpset (g : Graph) : Option Int :=
  match graphOpset g "" with
  | none => graphOpset g "ai.onnx"
  | some o => some o

/-- `MakeOptimizerContext`.  `kMinSupportedOpset`/`kMaxSupportedOpset`
come from a header that is not part of the core file; modelled from the
spec ("constrained to [kMinSupportedOpset, kMaxSupportedOpset]") as
explicit parameters. -/
def makeOptimizerContext (kMin kMax : Int) (g : Graph) (allowExtendedOps : Bool) :
    Option OptCtx :=
  match primaryOpset g with
  | none => none
  | some opset =>
    if opset > kMax ∨ opset < kMin then none
    else
      let allowExtendedOps :=
        if allowExtendedOps then
          match graphOpset g "com.microsoft" with
          | some msOpset => msOpset = 1
          | none => false
        else false
      some ⟨opset, allowExtendedOps, false⟩

/-- `Optimize`: no change when the context cannot be made. -/
def optimize (kMin kMax : Int) (g : Graph) (allowExtendedOps : Bool) :
    Option (Bool × Graph) :=
  match makeOptimizerContext kMin kMax g allowExtendedOps with
  | none => some (false, g)
  | some ctx => optimizeImpl ctx g

/-! ### Spec-side definitions and concrete examples -/

/-- The spec's composition convention: `compose(a, b)[i] = a[b[i]]`. -/
def composeSpec (a b : List Int) : List Int :=
  (List.range b.length).map (fun i => a.getD (b.getD i 0).toNat 0)

/-- The `perm` attribute of a node in a graph, if present. -/
def permAttrOfNode (g : Graph) (id : Nat) : Option (List Int) :=
  (getNode g id).bind (fun n => n.getAttributeInts "perm")

/-- A plain context at opset 13. -/
def ctx13 : OptCtx := ⟨13, false, false⟩

/-- A plain context at opset 9. -/
def ctx9 : OptCtx := ⟨9, false, false⟩

/-- A node with one input of unknown shape (no `ValueInfo` entry). -/
def exNodeAdd : Node :=
  { id := 0, opType := "Add", domain := "", inputs := ["x", "y"], outputs := ["z"]
    attrs := [] }

/-- Graph for the unknown-shape example: the value info store has no
entry for `"x"`, so its shape is unknown. -/
def exGraphUnknownShape : Graph :=
  { nodes := [exNodeAdd], initializers := []
    valueInfos := [("y", ⟨DataType.float, some [2, 3]⟩)]
    opsets := [("", 13)], graphOutputs := [], fresh := 10 }

/-- The same graph with a known shape for `"x"` for contrast. -/
def exGraphKnownShape : Graph :=
  { exGraphUnknownShape with
    valueInfos := [("x", ⟨DataType.float, some [2, 3]⟩),
                   ("y", ⟨DataType.float, some [2, 3]⟩)] }

/-- Transpose-pair graph for the fusion example: `x → Transpose(p) →
Transpose(q) → consumer`, with `p = [1,2,0]` and `q = [1,0,2]`
(`q ≠ inv(p) = [2,0,1]`). -/
def exFusionGraph : Graph :=
  { nodes :=
      [{ id := 0, opType := "Transpose", domain := "", inputs := ["x"]
         outputs := ["t1"], attrs := [("perm", AttrValue.ints [1, 2, 0])] },
       { id := 1, opType := "Transpose", domain := "", inputs := ["t1"]
         outputs := ["t2"], attrs := [("perm", AttrValue.ints [1, 0, 2])] },
       { id := 2, opType := "Relu", domain := "", inputs := ["t2"]
         outputs := ["w"], attrs := [] }]
    initializers := []
    valueInfos := [("x", ⟨DataType.float, some [2, 3, 4]⟩)]
    opsets := [("", 13)], graphOutputs := ["w"], fresh := 10 }

/-- Handler args for the fusion example: the driver passes the upstream
transpose's perm `p` and its inverse. -/
def exFusionArgs : HArgs :=
  ⟨0, 1, [1, 2, 0], [2, 0, 1], [0]⟩

/-- A graph with no Transpose nodes at all. -/
def exNoTransposeGraph : Graph :=
  { nodes :=
      [{ id := 0, opType := "Relu", domain := "", inputs := ["x"]
         outputs := ["y"], attrs := [] },
       { id := 1, opType := "Add", domain := "", inputs := ["y", "c"]
         outputs := ["z"], attrs := [] }]
    initializers := [("c", ⟨DataType.float, [2], [1, 1]⟩)]
    valueInfos := [("x", ⟨DataType.float, some [2]⟩)]
    opsets := [("", 13)], graphOutputs := ["z"], fresh := 10 }

/-- A graph whose primary-domain opset (20) is outside `[7, 15]`. -/
def exBadOpsetGraph : Graph :=
  { exNoTransposeGraph with opsets := [("", 20)] }

/-- A cheap push example: `x → Transpose([1,0]) → Relu → y` where the
input-side transpose cancels, so the inputs cost is negative. -/
def exPushGraph : Graph :=
  { nodes :=
      [{ id := 0, opType := "Transpose", domain := "", inputs := ["x"]
         outputs := ["t"], attrs := [("perm", AttrValue.ints [1, 0])] },
       { id := 1, opType := "Relu", domain := "", inputs := ["t"]
         outputs := ["y"], attrs := [] }]
    initializers := []
    valueInfos := [("x", ⟨DataType.float, some [2, 3]⟩),
                   ("t", ⟨DataType.float, some [3, 2]⟩)]
    opsets := [("", 13)], graphOutputs := ["y"], fresh := 10 }

/-- The `Relu` node of the push example. -/
def exReluNode : Node :=
  { id := 1, opType := "Relu", domain := "", inputs := ["t"], outputs := ["y"]
    attrs := [] }

/-- Reduction example (the spec's S5): `x → Transpose([0,3,1,2]) →
ReduceMean(axes=[2], keepdims=0) → y`. -/
def exReduceGraph : Graph :=
  { nodes :=
      [{ id := 0, opType := "ReduceMean", domain := "", inputs := ["t"]
         outputs := ["y"]
         attrs := [("axes", AttrValue.ints [2]), ("keepdims", AttrValue.int 0)] },
       { id := 1, opType := "Transpose", domain := "", inputs := ["x"]
         outputs := ["t"], attrs := [("perm", AttrValue.ints [0, 3, 1, 2])] }]
    initializers := []
    valueInfos := [("x", ⟨DataType.float, some [2, 3, 4, 5]⟩),
                   ("t", ⟨DataType.float, some [2, 5, 3, 4]⟩)]
    opsets := [("", 13)], graphOutputs := ["y"], fresh := 10 }

/-- The reduction node of the S5 example. -/
def exReduceNode : Node :=
  { id := 0, opType := "ReduceMean", domain := "", inputs := ["t"], outputs := ["y"]
    attrs := [("axes", AttrValue.ints [2]), ("keepdims", AttrValue.int 0)] }

/-- Handler args of the S5 example. -/
def exReduceArgs : HArgs := ⟨1, 0, [0, 3, 1, 2], [0, 2, 3, 1], [0]⟩

/-- A `Concat` node with no `axis` attribute (`Concat` has no default
axis, so its handler refuses). -/
def exConcatNoAxisGraph : Graph :=
  { nodes := [{ id := 0, opType := "Concat", domain := "", inputs := ["a", "b"]
                outputs := ["c"], attrs := [] }]
    initializers := [], valueInfos := [], opsets := [("", 13)]
    graphOutputs := ["c"], fresh := 5 }

/-- 2-D-coercion example: `x → Transpose([0,2,1]) → Softmax(axis=1) → y`
at opset 9; the perm keeps both sides of the split point in place. -/
def exSoftmaxGraph : Graph :=
  { nodes :=
      [{ id := 0, opType := "Softmax", domain := "", inputs := ["t"]
         outputs := ["y"], attrs := [("axis", AttrValue.int 1)] },
       { id := 1, opType := "Transpose", domain := "", inputs := ["x"]
         outputs := ["t"], attrs := [("perm", AttrValue.ints [0, 2, 1])] }]
    initializers := []
    valueInfos := [("x", ⟨DataType.float, some [2, 3, 4]⟩),
                   ("t", ⟨DataType.float, some [2, 4, 3]⟩)]
    opsets := [("", 9)], graphOutputs := ["y"], fresh := 10 }

/-- The Softmax node of the coercion example. -/
def exSoftmaxNode : Node :=
  { id := 0, opType := "Softmax", domain := "", inputs := ["t"], outputs := ["y"]
    attrs := [("axis", AttrValue.int 1)] }

/-- Handler args of the coercion example. -/
def exSoftmaxArgs : HArgs := ⟨1, 0, [0, 2, 1], [0, 2, 1], [0]⟩

/-- The upstream transpose of the fusion example. -/
def exFusionUpstream : Node :=
  { id := 0, opType := "Transpose", domain := "", inputs := ["x"], outputs := ["t1"]
    attrs := [("perm", AttrValue.ints [1, 2, 0])] }

/-- The downstream transpose of the fusion example. -/
def exFusionDownstream : Node :=
  { id := 1, opType := "Transpose", domain := "", inputs := ["t1"], outputs := ["t2"]
    attrs := [("perm", AttrValue.ints [1, 0, 2])] }

/-- The atomicity contract of a handler: a false (unchanged) return
leaves the graph byte-identical. -/
def HandlerOk (f : HandlerFunction) : Prop :=
  ∀ ctx args g g', f ctx args g = some (false, g') → g' = g

/-- A step from `g` to `g'` keeps the attributes of the node with the
given id (when it survives). -/
def PreservesAttrs (g g' : Graph) (id : Nat) : Prop :=
  ∀ n', getNode g' id = some n' → ∃ n, getNode g id = some n ∧ n'.attrs = n.attrs

/-- A step that only grows the fresh counter and keeps the attributes of
the node with the given id. -/
def AttrSafe (g g' : Graph) (id : Nat) : Prop :=
  g.fresh ≤ g'.fresh ∧ PreservesAttrs g g' id

/-! ### Theorems -/

/-- Helper for C10: a fully non-negative axes list passes through the
normalization loop untouched, with no check performed. -/
theorem navGo_nonneg (rankInt : Int) (used : List Bool) (axes : List Int)
    (h : ∀ a ∈ axes, 0 ≤ a) : navGo rankInt used axes = some axes := by
  induction axes generalizing used with
  | nil => rfl
  | cons a rest ih =>
    have ha : ¬ a < 0 := not_lt.mpr (h a (List.mem_cons_self a rest))
    simp only [navGo, if_neg ha]
    rw [ih used (fun x hx => h x (List.mem_cons_of_mem a hx))]
    rfl

/-- C10: for every axes vector whose entries are all non-negative and
every rank, `NormalizeAndValidateAxes` succeeds (returns true) and
leaves the vector unchanged — even when entries are duplicated or at
least `rank` — because the range/uniqueness checks run only inside the
`axes[i] < 0` branch. -/
theorem c10_nonneg_axes_pass_through (axes : List Int) (rank : Nat)
    (h : ∀ a ∈ axes, 0 ≤ a) :
    normalizeAndValidateAxes axes rank = some axes :=
  navGo_nonneg _ _ _ h

/-- C10 witness: duplicated and out-of-range non-negative axes are
accepted unchanged at rank 2. -/
theorem c10_witness :
    (∀ a ∈ [(3 : Int), 3, 7], 0 ≤ a) ∧
      normalizeAndValidateAxes [3, 3, 7] 2 = some [3, 3, 7] :=
  ⟨by decide, c10_nonneg_axes_pass_through [3, 3, 7] 2 (by decide)⟩

/-- C4: `ChannelLastToFirstPerm` is *not* well-defined at rank 1: the
source writes `p[1]` into a vector of size 1 (out of bounds, undefined
behavior, here `none`), although its own comment requires only
`rank >= 1`.  At rank ≥ 2 it produces `[0, rank-1, 1, …, rank-2]` as
specified (shown at rank 4 and rank 2). -/
theorem c4_channel_last_to_first_rank1_ub :
    channelLastToFirstPerm 1 = none ∧
      channelLastToFirstPerm 2 = some [0, 1] ∧
      channelLastToFirstPerm 4 = some [0, 3, 1, 2] := by
  decide

/-- C9: `NonScalarInputs` dereferences the shape optional without a
check: on a node with an input of unknown shape the execution is
undefined (`none`), while with known shapes it returns the non-scalar
indices.  The spec requires unknown shapes to be handled gracefully. -/
theorem c9_unknown_shape_ub :
    nonScalarInputs ctx13 exGraphUnknownShape exNodeAdd = none ∧
      nonScalarInputs ctx13 exGraphKnownShape exNodeAdd = some [0, 1] := by
  decide

/-- C8: when the primary-domain opset (domain `""` first, then
`"ai.onnx"`) is absent or out of `[kMinSupportedOpset,
kMaxSupportedOpset]`, `Optimize` returns false and the graph is
untouched. -/
theorem c8_unsupported_opset (kMin kMax : Int) (g : Graph) (allowExtendedOps : Bool)
    (h : ∀ v, primaryOpset g = some v → v < kMin ∨ v > kMax) :
    optimize kMin kMax g allowExtendedOps = some (false, g) := by
  unfold optimize makeOptimizerContext
  cases hp : primaryOpset g with
  | none => rfl
  | some v =>
    have hv := h v hp
    have : v > kMax ∨ v < kMin := hv.symm
    simp [this]

/-- C8 witness: opset 20 with bounds `[7, 15]`. -/
theorem c8_witness :
    (∀ v, primaryOpset exBadOpsetGraph = some v → v < 7 ∨ v > 15) ∧
      optimize 7 15 exBadOpsetGraph true = some (false, exBadOpsetGraph) :=
  ⟨fun v hv => by
      have : (20 : Int) = v := by
        have h20 : primaryOpset exBadOpsetGraph = some 20 := by decide
        rw [h20] at hv; exact Option.some.inj hv
      omega,
    c8_unsupported_opset 7 15 exBadOpsetGraph true (fun v hv => by
      have : (20 : Int) = v := by
        have h20 : primaryOpset exBadOpsetGraph = some 20 := by decide
        rw [h20] at hv; exact Option.some.inj hv
      omega)⟩

/-- A node found as the producer of a value is a node of the graph. -/
theorem getNodeProducingOutput_mem {g : Graph} {v : String} {n : Node}
    (h : getNodeProducingOutput g v = some n) : n ∈ g.nodes := by
  unfold getNodeProducingOutput at h
  split at h
  · exact absurd h (by simp)
  · exact List.mem_of_find?_eq_some h

/-- Reverse-pass step on a non-Transpose node with an empty set: no
output can be in the set, so the set stays empty. -/
theorem reverseStep_nontranspose_nil (ctx : OptCtx) (g : Graph) (node : Node)
    (h : node.opType ≠ "Transpose") : reverseStep ctx g [] node = some [] := by
  unfold reverseStep
  rw [if_neg h]
  induction node.outputs with
  | nil => rfl
  | cons o rest ih =>
    simp only [List.foldlM_cons, List.not_mem_nil, if_neg (List.not_mem_nil o)]
    simpa using ih

/-- Reverse pass over nodes none of which is a Transpose: the seed set
stays empty. -/
theorem reversePassGo_nontranspose (ctx : OptCtx) (g : Graph) (l : List Node)
    (h : ∀ n ∈ l, n.opType ≠ "Transpose") :
    l.foldlM (reverseStep ctx g) [] = some [] := by
  induction l with
  | nil => rfl
  | cons n rest ih =>
    simp only [List.foldlM_cons]
    rw [reverseStep_nontranspose_nil ctx g n (h n (List.mem_cons_self n rest))]
    simpa using ih (fun x hx => h x (List.mem_cons_of_mem n hx))

/-- The forward input scan of a transpose-free graph does nothing. -/
theorem forwardInputs_nontranspose (ctx : OptCtx) (oltt : List String)
    (nodeId : Nat) (g : Graph) (h : ∀ n ∈ g.nodes, n.opType ≠ "Transpose") :
    ∀ ps, forwardInputs ctx oltt nodeId ps g = some (false, g) := by
  intro ps
  induction ps with
  | nil => rfl
  | cons p rest ih =>
    obtain ⟨j, inp⟩ := p
    unfold forwardInputs
    split
    · exact ih
    · cases ht : getNodeProducingOutput g inp with
      | none => simpa using ih
      | some t =>
        have : t.opType ≠ "Transpose" := h t (getNodeProducingOutput_mem ht)
        simp only [if_neg this]
        simpa using ih

/-- The forward pass of a transpose-free graph does nothing. -/
theorem forwardNodes_nontranspose (ctx : OptCtx) (oltt : List String)
    (g : Graph) (h : ∀ n ∈ g.nodes, n.opType ≠ "Transpose") :
    ∀ ids changed, forwardNodes ctx oltt ids changed g = some (changed, g) := by
  intro ids
  induction ids with
  | nil => intro changed; rfl
  | cons nid rest ih =>
    intro changed
    unfold forwardNodes
    simp only [forwardInputs_nontranspose ctx oltt nid g h]
    simpa using ih (changed || false)

/-- C7: on a graph containing no Transpose node, `Optimize` returns
false and the graph is byte-identical: neither the reverse-reachability
pass nor the forward pass performs any mutation. -/
theorem c7_no_transpose_no_change (kMin kMax : Int) (g : Graph)
    (allowExtendedOps : Bool) (h : ∀ n ∈ g.nodes, n.opType ≠ "Transpose") :
    optimize kMin kMax g allowExtendedOps = some (false, g) := by
  cases hc : makeOptimizerContext kMin kMax g allowExtendedOps with
  | none => simp [optimize, hc]
  | some ctx =>
    have hrev : List.foldlM (reverseStep ctx g) [] g.nodes.reverse = some [] :=
      reversePassGo_nontranspose ctx g g.nodes.reverse
        (fun n hn => h n (List.mem_reverse.mp hn))
    simp only [optimize, hc, optimizeImpl, reversePass, hrev]
    exact forwardNodes_nontranspose ctx [] g h (g.nodes.map (·.id)) false

/-- C7 witness: a two-node transpose-free graph at a valid opset. -/
theorem c7_witness :
    (∀ n ∈ exNoTransposeGraph.nodes, n.opType ≠ "Transpose") ∧
      optimize 7 15 exNoTransposeGraph true = some (false, exNoTransposeGraph) :=
  ⟨by decide, c7_no_transpose_no_change 7 15 exNoTransposeGraph true (by decide)⟩

/-- `NormalizeInputRanks` validates every rank before its first
mutation, so a false return leaves the graph untouched. -/
theorem normalizeInputRanks_false {ctx : OptCtx} {g : Graph} {nodeId targetRank : Nat}
    {inputIndices : List Nat} {g' : Graph}
    (h : normalizeInputRanks ctx g nodeId targetRank inputIndices = (false, g')) :
    g' = g := by
  unfold normalizeInputRanks at h
  dsimp only [] at h
  split at h <;> simp_all

/-- `HandleSimpleNodeBase` false case (rank normalization failed). -/
theorem hok_base : ∀ ctx args b g g',
    handleSimpleNodeBase ctx args b g = some (false, g') → g' = g := by
  intro ctx args b g g' h
  unfold handleSimpleNodeBase at h
  repeat' ((try dsimp only [] at h); split at h)
  all_goals first
    | exact Option.noConfusion h
    | (injection h with h1; injection h1 with hb hg;
       first
         | exact hg.symm
         | exact Bool.noConfusion hb
         | exact (hg.symm.trans (normalizeInputRanks_false (by assumption))))

/-- `HandleSimpleNodeWithAxis` false cases precede every mutation. -/
theorem hok_withAxis : ∀ ctx args hasDefault defaultAxis g g',
    handleSimpleNodeWithAxis ctx args hasDefault defaultAxis g = some (false, g') →
      g' = g := by
  intro ctx args hasDefault defaultAxis g g' h
  unfold handleSimpleNodeWithAxis at h
  repeat' ((try dsimp only [] at h); split at h)
  all_goals first
    | exact Option.noConfusion h
    | (injection h with h1; injection h1 with hb hg;
       first
         | exact hg.symm
         | exact Bool.noConfusion hb
         | exact (hg.symm.trans (hok_base _ _ _ _ _ (by assumption))))

/-- `HandleReduceOp` false case (invalid axes) precedes every mutation. -/
theorem hok_reduceOp : HandlerOk handleReduceOp := by
  intro ctx args g g' h
  unfold handleReduceOp at h
  repeat' ((try dsimp only [] at h); split at h)
  all_goals first
    | exact Option.noConfusion h
    | (injection h with h1; injection h1 with hb hg;
       first | exact hg.symm | exact Bool.noConfusion hb)

/-- `HandleSimpleNode` never mutates before a false return. -/
theorem hok_simpleNode : HandlerOk handleSimpleNode := by
  intro ctx args g g' h
  exact hok_base _ _ _ _ _ h

/-- `HandleSimpleNodeBroadcast` never mutates before a false return. -/
theorem hok_simpleNodeBroadcast : HandlerOk handleSimpleNodeBroadcast := by
  intro ctx args g g' h
  exact hok_base _ _ _ _ _ h

/-- `HandleSimpleNode1Inp` never mutates before a false return. -/
theorem hok_simpleNode1Inp : HandlerOk handleSimpleNode1Inp := by
  intro ctx args g g' h
  exact hok_base _ _ _ _ _ h

/-- `HandleSplit` never mutates before a false return. -/
theorem hok_split : HandlerOk handleSplit := by
  intro ctx args g g' h
  exact hok_withAxis _ _ _ _ _ _ h

/-- `HandleConcat` never mutates before a false return. -/
theorem hok_concat : HandlerOk handleConcat := by
  intro ctx args g g' h
  exact hok_withAxis _ _ _ _ _ _ h

/-- `HandleQLinearConcat` never mutates before a false return. -/
theorem hok_qLinearConcat : HandlerOk handleQLinearConcat := by
  intro ctx args g g' h
  exact hok_withAxis _ _ _ _ _ _ h

/-- `HandleQLinearBinaryOp` never mutates before a false return. -/
theorem hok_qLinearBinaryOp : HandlerOk handleQLinearBinaryOp := by
  intro ctx args g g' h
  exact hok_base _ _ _ _ _ h

/-- `HandleSoftHardMax` never mutates before a false return. -/
theorem hok_softHardMax : HandlerOk handleSoftHardMax := by
  intro ctx args g g' h
  unfold handleSoftHardMax at h
  repeat' ((try dsimp only [] at h); split at h)
  all_goals first
    | exact Option.noConfusion h
    | exact hok_withAxis _ _ _ _ _ _ h
    | exact hok_base _ _ _ _ _ h
    | (injection h with h1; injection h1 with hb hg;
       first | exact hg.symm | exact Bool.noConfusion hb)

/-- `HandleShape` never returns false. -/
theorem hok_shape : HandlerOk handleShape := by
  intro ctx args g g' h
  unfold handleShape at h
  repeat' ((try dsimp only [] at h); split at h)
  all_goals first
    | exact Option.noConfusion h
    | (injection h with h1; injection h1 with hb hg;
       first | exact hg.symm | exact Bool.noConfusion hb)

/-- `HandlePad` never mutates before a false return. -/
theorem hok_pad : HandlerOk handlePad := by
  intro ctx args g g' h
  unfold handlePad at h
  repeat' ((try dsimp only [] at h); split at h)
  all_goals first
    | exact Option.noConfusion h
    | (injection h with h1; injection h1 with hb hg;
       first | exact hg.symm | exact Bool.noConfusion hb)

/-- `HandleReduceSum` never mutates before a false return. -/
theorem hok_reduceSum : HandlerOk handleReduceSum := by
  intro ctx args g g' h
  unfold handleReduceSum at h
  repeat' ((try dsimp only [] at h); split at h)
  all_goals first
    | exact Option.noConfusion h
    | exact hok_reduceOp _ _ _ _ h
    | (injection h with h1; injection h1 with hb hg;
       first | exact hg.symm | exact Bool.noConfusion hb)

/-- `HandleSqueeze` never mutates before a false return. -/
theorem hok_squeeze : HandlerOk handleSqueeze := by
  intro ctx args g g' h
  unfold handleSqueeze at h
  repeat' ((try dsimp only [] at h); split at h)
  all_goals first
    | exact Option.noConfusion h
    | (injection h with h1; injection h1 with hb hg;
       first | exact hg.symm | exact Bool.noConfusion hb)

/-- `HandleUnsqueeze` never mutates before a false return. -/
theorem hok_unsqueeze : HandlerOk handleUnsqueeze := by
  intro ctx args g g' h
  unfold handleUnsqueeze at h
  repeat' ((try dsimp only [] at h); split at h)
  all_goals first
    | exact Option.noConfusion h
    | (injection h with h1; injection h1 with hb hg;
       first | exact hg.symm | exact Bool.noConfusion hb)

/-- `HandleQuantizeDequantizeLinear` never mutates before a false return. -/
theorem hok_quantizeDequantizeLinear : HandlerOk handleQuantizeDequantizeLinear := by
  intro ctx args g g' h
  unfold handleQuantizeDequantizeLinear at h
  repeat' ((try dsimp only [] at h); split at h)
  all_goals first
    | exact Option.noConfusion h
    | (injection h with h1; injection h1 with hb hg;
       first | exact hg.symm | exact Bool.noConfusion hb)

/-- `HandleArgMinMax` never mutates before a false return. -/
theorem hok_argMinMax : HandlerOk handleArgMinMax := by
  intro ctx args g g' h
  unfold handleArgMinMax at h
  repeat' ((try dsimp only [] at h); split at h)
  all_goals first
    | exact Option.noConfusion h
    | (injection h with h1; injection h1 with hb hg;
       first | exact hg.symm | exact Bool.noConfusion hb)

/-- `HandleSlice` never mutates before a false return. -/
theorem hok_slice : HandlerOk handleSlice := by
  intro ctx args g g' h
  unfold handleSlice at h
  repeat' ((try dsimp only [] at h); split at h)
  all_goals first
    | exact Option.noConfusion h
    | (injection h with h1; injection h1 with hb hg;
       first | exact hg.symm | exact Bool.noConfusion hb)

/-- `HandleTile` never returns false. -/
theorem hok_tile : HandlerOk handleTile := by
  intro ctx args g g' h
  unfold handleTile at h
  repeat' ((try dsimp only [] at h); split at h)
  all_goals first
    | exact Option.noConfusion h
    | (injection h with h1; injection h1 with hb hg;
       first | exact hg.symm | exact Bool.noConfusion hb)

/-- `HandleTranspose` returns false only on an invalid downstream perm,
before any mutation. -/
theorem hok_transpose : HandlerOk handleTranspose := by
  intro ctx args g g' h
  unfold handleTranspose at h
  repeat' ((try dsimp only [] at h); split at h)
  all_goals first
    | exact Option.noConfusion h
    | (injection h with h1; injection h1 with hb hg;
       first | exact hg.symm | exact Bool.noConfusion hb)

/-- `HandleQLinearPoolOp` never mutates before a false return. -/
theorem hok_qLinearPoolOp : HandlerOk handleQLinearPoolOp := by
  intro ctx args g g' h
  unfold handleQLinearPoolOp at h
  repeat' ((try dsimp only [] at h); split at h)
  all_goals first
    | exact Option.noConfusion h
    | (injection h with h1; injection h1 with hb hg;
       first | exact hg.symm | exact Bool.noConfusion hb)

/-- `HandleMaxPool` never mutates before a false return. -/
theorem hok_maxPool : HandlerOk handleMaxPool := by
  intro ctx args g g' h
  unfold handleMaxPool at h
  repeat' ((try dsimp only [] at h); split at h)
  all_goals first
    | exact Option.noConfusion h
    | (injection h with h1; injection h1 with hb hg;
       first | exact hg.symm | exact Bool.noConfusion hb)

/-- C2: for every handler in the dispatch tables (standard and
extended) and every graph and `HandlerArgs`, a false (unchanged) return
leaves the graph byte-identical — every handler performs all of its
validity checks before its first mutation. -/
theorem c2_false_means_unchanged : ∀ k info,
    (k, info) ∈ handlerMapList ++ extendedHandlerMapList →
    ∀ ctx args g g', info.handlerFn ctx args g = some (false, g') → g' = g := by
  intro k info hmem
  fin_cases hmem <;>
    first
      | exact fun ctx args g g' h => hok_simpleNode ctx args g g' h
      | exact fun ctx args g g' h => hok_simpleNodeBroadcast ctx args g g' h
      | exact fun ctx args g g' h => hok_simpleNode1Inp ctx args g g' h
      | exact fun ctx args g g' h => hok_split ctx args g g' h
      | exact fun ctx args g g' h => hok_concat ctx args g g' h
      | exact fun ctx args g g' h => hok_softHardMax ctx args g g' h
      | exact fun ctx args g g' h => hok_shape ctx args g g' h
      | exact fun ctx args g g' h => hok_pad ctx args g g' h
      | exact fun ctx args g g' h => hok_reduceOp ctx args g g' h
      | exact fun ctx args g g' h => hok_reduceSum ctx args g g' h
      | exact fun ctx args g g' h => hok_squeeze ctx args g g' h
      | exact fun ctx args g g' h => hok_unsqueeze ctx args g g' h
      | exact fun ctx args g g' h => hok_quantizeDequantizeLinear ctx args g g' h
      | exact fun ctx args g g' h => hok_argMinMax ctx args g g' h
      | exact fun ctx args g g' h => hok_slice ctx args g g' h
      | exact fun ctx args g g' h => hok_tile ctx args g g' h
      | exact fun ctx args g g' h => hok_transpose ctx args g g' h
      | exact fun ctx args g g' h => hok_qLinearConcat ctx args g g' h
      | exact fun ctx args g g' h => hok_qLinearBinaryOp ctx args g g' h
      | exact fun ctx args g g' h => hok_qLinearPoolOp ctx args g g' h
      | exact fun ctx args g g' h => hok_maxPool ctx args g g' h

/-- C3: the `ProcessTranspose` cost gate.  (i) With the cost check not
skipped, a node that is neither `Transpose` nor `MaxPool` passes the
gate (so its handler can be invoked) only if
`EstimateTransposeInputsCost` over the transposible input indices is
strictly negative.  (ii) `Transpose` and `MaxPool` nodes always pass
the gate.  (iii) Whenever the handler exists and the transpose sits on
an eligible input, `ProcessTranspose` invokes the handler exactly when
the gate accepts, and returns false (unchanged) otherwise. -/
theorem c3_cost_gate (ctx : OptCtx) (g : Graph) (node : Node) (info : HandlerInfo)
    (perm : List Int) (inputIndices : List Nat) (oltt : List String) :
    (ctx.skipCostCheck = false → node.opType ≠ "Transpose" → node.opType ≠ "MaxPool" →
      processTransposeGateAccepts ctx g node info perm inputIndices oltt = true →
      estimateTransposeInputsCost g node perm inputIndices < 0) ∧
    ((node.opType = "Transpose" ∨ node.opType = "MaxPool") →
      processTransposeGateAccepts ctx g node info perm inputIndices oltt = true) ∧
    (∀ transposeId nodeId tIdx,
      getNode g nodeId = some node →
      getHandler node ctx.allowExtendedOps = some info →
      info.transposibleInputsFn ctx g node = some inputIndices →
      tIdx ∈ inputIndices →
      processTranspose ctx transposeId nodeId perm tIdx oltt g =
        (if processTransposeGateAccepts ctx g node info perm inputIndices oltt
         then info.handlerFn ctx ⟨transposeId, nodeId, perm, invertPerm perm, inputIndices⟩ g
         else some (false, g))) := by
  refine ⟨?_, ?_, ?_⟩
  · intro hskip hT hMP hgate
    unfold processTransposeGateAccepts at hgate
    rw [if_pos ⟨by simp [hskip], hT, hMP⟩] at hgate
    have hcost : processTransposeCost g node info perm inputIndices oltt < 0 :=
      of_decide_eq_true hgate
    by_cases hc : estimateTransposeInputsCost g node perm inputIndices < 0
    · exact hc
    · unfold processTransposeCost at hcost
      rw [if_neg (fun hand => hc hand.1)] at hcost
      exact hcost
  · intro hop
    unfold processTransposeGateAccepts
    rw [if_neg]
    rcases hop with h | h
    · exact fun hand => hand.2.1 h
    · exact fun hand => hand.2.2 h
  · intro transposeId nodeId tIdx hnode hhandler hfn htIdx
    simp only [processTranspose, hnode, hhandler, hfn]
    rw [if_neg (by simpa using htIdx)]

/-- C3 witness: on the push example the gate accepts the `Relu` node
(cancelling transpose on its input, output leading to a transpose), and
the inputs cost is indeed strictly negative. -/
theorem c3_witness :
    processTransposeGateAccepts ctx13 exPushGraph exReluNode simpleNodeHandler
        [1, 0] [0] ["y"] = true ∧
      estimateTransposeInputsCost exPushGraph exReluNode [1, 0] [0] < 0 :=
  ⟨by decide,
    (c3_cost_gate ctx13 exPushGraph exReluNode simpleNodeHandler [1, 0] [0] ["y"]).1
      rfl (by decide) (by decide) (by decide)⟩

/-- C5: `HandleReduceOp` with a valid perm.  With `axes` unset, the
input is transposed by `perm_inv` and the outputs by `perm` when
`keepdims` is nonzero, by the empty permutation (`TransposeOutputs`
skips an identity perm, so no transpose) when `keepdims` is 0.  With
`axes` set and normalizing successfully, the `axes` attribute becomes
`sorted_axes_for_transposed_input(axes, perm)` and the outputs are
transposed by `perm` when `keepdims` is nonzero and by
`squeeze_perm(new_axes, perm)` when `keepdims` is 0. -/
theorem c5_reduce_handler (ctx : OptCtx) (args : HArgs) (g : Graph) (node : Node)
    (hn : getNode g args.nodeId = some node) :
    (node.getAttributeInts "axes" = none →
      handleReduceOp ctx args g = some (true,
        transposeOutputs ctx (transposeFirstInput ctx g args.nodeId args.permInv)
          args.nodeId
          (if node.getAttributeIntDefault "keepdims" 1 = 0 then [] else args.perm))) ∧
    (∀ axes axesN, node.getAttributeInts "axes" = some axes →
      normalizeAndValidateAxes axes args.perm.length = some axesN →
      handleReduceOp ctx args g = some (true,
        transposeOutputs ctx
          (transposeFirstInput ctx
            (setAttributeInts g args.nodeId "axes"
              (sortedAxesForTransposedInput axesN args.perm))
            args.nodeId args.permInv)
          args.nodeId
          (if node.getAttributeIntDefault "keepdims" 1 = 0
           then squeezePerm (sortedAxesForTransposedInput axesN args.perm) args.perm
           else args.perm))) := by
  constructor
  · intro hax
    simp only [handleReduceOp, hn, hax]
  · intro axes axesN hax hnorm
    simp only [handleReduceOp, hn, hax, hnorm]

/-- C5 witness: the spec's S5 scenario — `axes = [2]` under perm
`[0,3,1,2]` becomes `[1]`, and with `keepdims = 0` the output
permutation is `squeeze_perm([1], [0,3,1,2]) = [0,2,1]`. -/
theorem c5_witness :
    exReduceNode.getAttributeInts "axes" = some [2] ∧
      normalizeAndValidateAxes [2] 4 = some [2] ∧
      sortedAxesForTransposedInput [2] [0, 3, 1, 2] = [1] ∧
      squeezePerm [1] [0, 3, 1, 2] = [0, 2, 1] ∧
      handleReduceOp ctx13 exReduceArgs exReduceGraph = some (true,
        transposeOutputs ctx13
          (transposeFirstInput ctx13
            (setAttributeInts exReduceGraph 0 "axes"
              (sortedAxesForTransposedInput [2] [0, 3, 1, 2]))
            0 [0, 2, 3, 1])
          0 (squeezePerm (sortedAxesForTransposedInput [2] [0, 3, 1, 2]) [0, 3, 1, 2])) :=
  ⟨by decide, by decide, by decide, by decide,
    by
      have h := (c5_reduce_handler ctx13 exReduceArgs exReduceGraph exReduceNode
        (by decide)).2 [2] [2] (by decide) (by decide)
      simpa using h⟩

/-! Node-lookup tracking lemmas used by the handler-behavior claims. -/

/-- `find?` by id commutes with an id-preserving map. -/
theorem find?_map_of_idkeep (φ : Node → Node) (hφ : ∀ n, (φ n).id = n.id)
    (id : Nat) : ∀ l : List Node,
    (l.map φ).find? (fun n => n.id = id) = (l.find? (fun n => n.id = id)).map φ := by
  intro l
  induction l with
  | nil => rfl
  | cons n rest ih =>
    by_cases h : n.id = id
    · rw [List.map_cons, List.find?_cons_of_pos _ (by simp [hφ, h]),
        List.find?_cons_of_pos _ (by simp [h])]
      rfl
    · rw [List.map_cons, List.find?_cons_of_neg _ (by simp [hφ, h]),
        List.find?_cons_of_neg _ (by simp [h]), ih]

/-- Node lookup after an id-preserving map of the node list. -/
theorem getNode_mapNodes (g : Graph) (φ : Node → Node) (hφ : ∀ n, (φ n).id = n.id)
    (id : Nat) :
    getNode { g with nodes := g.nodes.map φ } id = (getNode g id).map φ := by
  unfold getNode
  exact find?_map_of_idkeep φ hφ id g.nodes

/-- A found node carries the id it was looked up by. -/
theorem getNode_id {g : Graph} {id : Nat} {n : Node} (h : getNode g id = some n) :
    n.id = id := by
  unfold getNode at h
  have := List.find?_some h
  exact of_decide_eq_true this

/-- Node lookup after a point update with an id-preserving function. -/
theorem getNode_updateNode (g : Graph) (tid : Nat) (f : Node → Node)
    (hfid : ∀ n, (f n).id = n.id) (id : Nat) :
    getNode (updateNode g tid f) id
      = (getNode g id).map (fun n => if n.id = tid then f n else n) := by
  unfold updateNode
  exact getNode_mapNodes g _
    (fun n => by by_cases h : n.id = tid <;> simp [h, hfid]) id

/-- A point update of another node leaves a lookup unchanged. -/
theorem getNode_updateNode_ne (g : Graph) (tid : Nat) (f : Node → Node)
    (hfid : ∀ n, (f n).id = n.id) (id : Nat) (hne : tid ≠ id) :
    getNode (updateNode g tid f) id = getNode g id := by
  rw [getNode_updateNode g tid f hfid id]
  cases h : getNode g id with
  | none => rfl
  | some n =>
    have hid : n.id = id := getNode_id h
    have hnt : n.id ≠ tid := by rw [hid]; exact Ne.symm hne
    simp [hnt]

/-- `find?` commutes with a filter that keeps every match. -/
theorem find?_filter_comm (p q : Node → Bool) (himp : ∀ n, p n = true → q n = true) :
    ∀ l : List Node, (l.filter q).find? p = l.find? p := by
  intro l
  induction l with
  | nil => rfl
  | cons n rest ih =>
    by_cases hq : q n = true
    · rw [List.filter_cons_of_pos hq]
      by_cases hp : p n = true
      · rw [List.find?_cons_of_pos _ hp, List.find?_cons_of_pos _ hp]
      · rw [List.find?_cons_of_neg _ (by simpa using hp),
          List.find?_cons_of_neg _ (by simpa using hp), ih]
    · have hq2 : ¬ q n = true := by simpa using hq
      rw [List.filter_cons_of_neg hq2]
      have hp : ¬ p n = true := fun hpv => hq2 (himp n hpv)
      rw [List.find?_cons_of_neg _ hp, ih]

/-- `find?` over a filter that drops every match finds nothing. -/
theorem find?_filter_none (p q : Node → Bool)
    (himp : ∀ n, p n = true → q n = true → False) :
    ∀ l : List Node, (l.filter q).find? p = none := by
  intro l
  induction l with
  | nil => rfl
  | cons n rest ih =>
    by_cases hq : q n = true
    · rw [List.filter_cons_of_pos hq]
      have hp : ¬ p n = true := fun hpv => himp n hpv hq
      rw [List.find?_cons_of_neg _ hp, ih]
    · rw [List.filter_cons_of_neg (by simpa using hq), ih]

/-- Removing another node leaves a lookup unchanged. -/
theorem getNode_removeNode_ne (g : Graph) (rid id : Nat) (hne : rid ≠ id) :
    getNode (removeNode g rid) id = getNode g id := by
  unfold removeNode getNode
  exact find?_filter_comm _ _
    (fun n hn => by
      have : n.id = id := of_decide_eq_true hn
      simp [this, Ne.symm hne]) g.nodes

/-- Removing a node makes its own lookup fail. -/
theorem getNode_removeNode_self (g : Graph) (id : Nat) :
    getNode (removeNode g id) id = none := by
  unfold removeNode getNode
  exact find?_filter_none _ _
    (fun n hn hq => by
      have h1 : n.id = id := of_decide_eq_true hn
      have h2 : n.id ≠ id := of_decide_eq_true hq
      exact h2 h1) g.nodes

/-- Appending a non-matching node does not change a `find?`. -/
theorem find?_append_notlast (p : Node → Bool) (x : Node) (hx : ¬ p x = true) :
    ∀ l : List Node, (l ++ [x]).find? p = l.find? p := by
  intro l
  induction l with
  | nil => simp [List.find?, hx]
  | cons n rest ih =>
    by_cases hp : p n = true
    · rw [List.cons_append, List.find?_cons_of_pos _ hp, List.find?_cons_of_pos _ hp]
    · rw [List.cons_append, List.find?_cons_of_neg _ hp,
        List.find?_cons_of_neg _ hp, ih]

/-- Adding a node cannot shadow a lookup of a different, older id. -/
theorem getNode_addNode_ne (g : Graph) (op : String) (ins : List String)
    (k : Nat) (dom : String) (id : Nat) (hne : id ≠ g.fresh) :
    getNode (addNode g op ins k dom).2 id = getNode g id := by
  unfold addNode getNode
  exact find?_append_notlast _ _ (by simp [Ne.symm hne]) g.nodes

/-- Lookups only read the node list. -/
theorem getNode_ext {g g' : Graph} (h : g'.nodes = g.nodes) (id : Nat) :
    getNode g' id = getNode g id := by
  unfold getNode
  rw [h]

/-- C2 witness: the `Concat` handler on a node with no `axis` attribute
returns false and the graph is unchanged. -/
theorem c2_witness :
    concatHandler.handlerFn ctx13 ⟨7, 0, [1, 0], [1, 0], [0, 1]⟩ exConcatNoAxisGraph
        = some (false, exConcatNoAxisGraph) ∧
      exConcatNoAxisGraph = exConcatNoAxisGraph :=
  ⟨by decide,
    c2_false_means_unchanged "Concat" concatHandler
      (by simp [handlerMapList, extendedHandlerMapList])
      ctx13 ⟨7, 0, [1, 0], [1, 0], [0, 1]⟩ exConcatNoAxisGraph exConcatNoAxisGraph
      (by decide)⟩

/-! Attribute-safety lemmas: each graph-edit primitive used by the
input/output transposition helpers grows the fresh counter monotonically
and never changes the attributes of a pre-existing node. -/

/-- `AttrSafe` is reflexive. -/
theorem attrSafe_refl (g : Graph) (id : Nat) : AttrSafe g g id :=
  ⟨le_refl _, fun n' h => ⟨n', h, rfl⟩⟩

/-- `AttrSafe` composes. -/
theorem attrSafe_trans {g1 g2 g3 : Graph} {id : Nat}
    (h1 : AttrSafe g1 g2 id) (h2 : AttrSafe g2 g3 id) : AttrSafe g1 g3 id :=
  ⟨le_trans h1.1 h2.1, fun n' h => by
    obtain ⟨n2, hn2, ha2⟩ := h2.2 n' h
    obtain ⟨n1, hn1, ha1⟩ := h1.2 n2 hn2
    exact ⟨n1, hn1, ha2.trans ha1⟩⟩

/-- A step that keeps node lookups intact is attribute-safe. -/
theorem attrSafe_of_getNode_eq {g g' : Graph} {id : Nat} (hf : g.fresh ≤ g'.fresh)
    (h : getNode g' id = getNode g id) : AttrSafe g g' id :=
  ⟨hf, fun n' hn => ⟨n', by rw [← h]; exact hn, rfl⟩⟩

/-- A point update that keeps ids and attributes is attribute-safe. -/
theorem attrSafe_updateNode_attrkeep (g : Graph) (tid : Nat) (f : Node → Node)
    (hfid : ∀ n, (f n).id = n.id) (hfa : ∀ n, (f n).attrs = n.attrs) (id : Nat) :
    AttrSafe g (updateNode g tid f) id := by
  refine ⟨le_refl _, fun n' hn => ?_⟩
  rw [getNode_updateNode g tid f hfid id] at hn
  cases h : getNode g id with
  | none => rw [h] at hn; exact absurd hn (by simp)
  | some n =>
    rw [h] at hn
    refine ⟨n, rfl, ?_⟩
    have hn2 : (if n.id = tid then f n else n) = n' := by simpa using hn
    rw [← hn2]
    split
    · exact hfa n
    · rfl

/-- `SetInput` is attribute-safe. -/
theorem attrSafe_setInput (g : Graph) (tid i : Nat) (v : String) (id : Nat) :
    AttrSafe g (setInput g tid i v) id :=
  attrSafe_updateNode_attrkeep g tid (fun n => { n with inputs := n.inputs.set i v })
    (fun n => rfl) (fun n => rfl) id

/-- `SetAttributeInts` on another node is attribute-safe. -/
theorem attrSafe_setAttributeInts_ne (g : Graph) (tid : Nat) (name : String)
    (v : List Int) (id : Nat) (hne : tid ≠ id) :
    AttrSafe g (setAttributeInts g tid name v) id :=
  attrSafe_of_getNode_eq (le_refl _)
    (getNode_updateNode_ne g tid
      (fun n => { n with attrs := assocSet n.attrs name (AttrValue.ints v) })
      (fun n => rfl) id hne)

/-- `RemoveNode` is attribute-safe (the removed node simply no longer
resolves). -/
theorem attrSafe_removeNode (g : Graph) (rid id : Nat) :
    AttrSafe g (removeNode g rid) id := by
  refine ⟨le_refl _, fun n' hn => ?_⟩
  by_cases h : rid = id
  · rw [h, getNode_removeNode_self] at hn
    exact absurd hn (by simp)
  · rw [getNode_removeNode_ne g rid id h] at hn
    exact ⟨n', hn, rfl⟩

/-- Value-metadata writes are attribute-safe. -/
theorem attrSafe_copyValueInfo (g : Graph) (src dst : String) (id : Nat) :
    AttrSafe g (copyValueInfo g src dst) id :=
  attrSafe_of_getNode_eq (le_refl _) rfl

/-- Value-metadata updates are attribute-safe. -/
theorem attrSafe_updateValueInfo (g : Graph) (v : String) (f : ValueInfo → ValueInfo)
    (id : Nat) : AttrSafe g (updateValueInfo g v f) id :=
  attrSafe_of_getNode_eq (le_refl _) rfl

/-- `ReplaceValueReferences` resolves nodes to their rewired versions. -/
theorem getNode_replaceValueReferences (g : Graph) (ids : List Nat)
    (oldV newV : String) (id : Nat) :
    getNode (replaceValueReferences g ids oldV newV) id
      = (getNode g id).map (fun n =>
          if n.id ∈ ids then
            { n with inputs := n.inputs.map (fun v => if v = oldV then newV else v) }
          else n) := by
  unfold replaceValueReferences
  exact getNode_mapNodes g _ (fun n => by split <;> rfl) id

/-- `ReplaceValueReferences` is attribute-safe. -/
theorem attrSafe_replaceValueReferences (g : Graph) (ids : List Nat)
    (oldV newV : String) (id : Nat) :
    AttrSafe g (replaceValueReferences g ids oldV newV) id := by
  refine ⟨le_refl _, fun n' hn => ?_⟩
  rw [getNode_replaceValueReferences g ids oldV newV id] at hn
  cases h : getNode g id with
  | none => rw [h] at hn; exact absurd hn (by simp)
  | some n =>
    rw [h] at hn
    refine ⟨n, rfl, ?_⟩
    rw [← Option.some.inj hn]
    by_cases hm : n.id ∈ ids
    · simp [hm]
    · simp [hm]

/-- `AddNode` is attribute-safe for older ids. -/
theorem attrSafe_addNode (g : Graph) (op : String) (ins : List String) (k : Nat)
    (dom : String) (id : Nat) (hne : id ≠ g.fresh) :
    AttrSafe g (addNode g op ins k dom).2 id :=
  attrSafe_of_getNode_eq (Nat.le_succ _) (getNode_addNode_ne g op ins k dom id hne)

/-- `MoveOutput` only rewrites output slots, hence is attribute-safe. -/
theorem attrSafe_moveOutput (g : Graph) (srcId i dstId j id : Nat) :
    AttrSafe g (moveOutput g srcId i dstId j) id := by
  unfold moveOutput
  split
  · exact attrSafe_refl g id
  · rename_i src hsrc
    refine attrSafe_trans
      (attrSafe_updateNode_attrkeep g dstId
        (fun n => { n with outputs := n.outputs.set j (src.outputs.getD i "") })
        (fun n => rfl) (fun n => rfl) id) ?_
    refine attrSafe_trans
      (attrSafe_updateNode_attrkeep _ srcId
        (fun n => { n with outputs := n.outputs.set i (freshValueName g.fresh 0) })
        (fun n => rfl) (fun n => rfl) id) ?_
    exact attrSafe_of_getNode_eq (Nat.le_succ _) rfl

/-- `MakeNode1Attr` sets the attribute only on its fresh node. -/
theorem attrSafe_makeNode1Attr (g : Graph) (op input attrName : String)
    (attrVal : List Int) (id : Nat) (hid : id < g.fresh) :
    AttrSafe g (makeNode1Attr g op input attrName attrVal).2 id := by
  have h2 : (makeNode1Attr g op input attrName attrVal).2
      = setAttributeInts (addNode g op [input] 1 "").2
          (addNode g op [input] 1 "").1.id attrName attrVal := rfl
  rw [h2]
  refine attrSafe_trans (attrSafe_addNode g op [input] 1 "" id (Nat.ne_of_lt hid)) ?_
  exact attrSafe_setAttributeInts_ne _ _ _ _ id (Ne.symm (Nat.ne_of_lt hid))

/-- `MakeTranspose` is attribute-safe for pre-existing nodes. -/
theorem attrSafe_makeTranspose (g : Graph) (input : String) (perm : List Int)
    (id : Nat) (hid : id < g.fresh) :
    AttrSafe g (makeTranspose g input perm).2 id :=
  attrSafe_makeNode1Attr g "Transpose" input "perm" perm id hid

/-- Attribute safety splits over a conditional. -/
theorem attrSafe_ite (g a b : Graph) (c : Prop) [Decidable c] (id : Nat)
    (ha : AttrSafe g a id) (hb : AttrSafe g b id) :
    AttrSafe g (if c then a else b) id := by
  split
  · exact ha
  · exact hb

/-- `TransposeInitializer` touches no node and no fresh counter. -/
theorem transposeInitializer_nodesFresh (g : Graph) (name : String) (perm : List Int) :
    (transposeInitializer g name perm).nodes = g.nodes ∧
      (transposeInitializer g name perm).fresh = g.fresh := by
  unfold transposeInitializer
  dsimp only []
  split <;> exact ⟨rfl, rfl⟩

/-- `TransposeInitializer` is attribute-safe. -/
theorem attrSafe_transposeInitializer (g : Graph) (name : String) (perm : List Int)
    (id : Nat) : AttrSafe g (transposeInitializer g name perm) id :=
  attrSafe_of_getNode_eq (le_of_eq (transposeInitializer_nodesFresh g name perm).2.symm)
    (getNode_ext (transposeInitializer_nodesFresh g name perm).1 id)

/-- Cases 3/4 of `TransposeInput` are attribute-safe. -/
theorem attrSafe_transposeInputDefault (g : Graph) (nodeId i : Nat) (input : String)
    (perm : List Int) (consumers : Consumers) (id : Nat) (hid : id < g.fresh) :
    AttrSafe g (transposeInputDefault g nodeId i input perm consumers) id := by
  unfold transposeInputDefault
  split
  · exact attrSafe_setInput _ _ _ _ _
  · exact attrSafe_trans (attrSafe_makeTranspose g input perm id hid)
      (attrSafe_trans (attrSafe_copyValueInfo _ _ _ _)
        (attrSafe_trans (attrSafe_updateValueInfo _ _ _ _)
          (attrSafe_setInput _ _ _ _ _)))

/-- `TransposeInput` never changes the attributes of a pre-existing node
(it removes, rewires and creates nodes, but only sets the `perm`
attribute of its fresh transposes). -/
theorem attrSafe_transposeInput (ctx : OptCtx) (g : Graph) (nodeId i : Nat)
    (perm permInv : List Int) (id : Nat) (hid : id < g.fresh) :
    AttrSafe g (transposeInput ctx g nodeId i perm permInv) id := by
  unfold transposeInput
  split
  · exact attrSafe_refl g id
  · rename_i node hnode
    dsimp only []
    refine attrSafe_trans (attrSafe_setInput g nodeId i "" id) ?_
    split
    · exact attrSafe_trans
        (attrSafe_ite _ _ _ _ id
          (attrSafe_trans (attrSafe_makeTranspose _ _ _ id hid)
            (attrSafe_trans (attrSafe_copyValueInfo _ _ _ _)
              (attrSafe_replaceValueReferences _ _ _ _ _)))
          (attrSafe_refl _ id))
        (attrSafe_trans (attrSafe_transposeInitializer _ _ _ _)
          (attrSafe_setInput _ _ _ _ _))
    · split
      · split
        · split
          · split
            · exact attrSafe_trans
                (attrSafe_ite _ _ _ _ id (attrSafe_removeNode _ _ _) (attrSafe_refl _ id))
                (attrSafe_setInput _ _ _ _ _)
            · exact attrSafe_trans (attrSafe_makeTranspose _ _ _ id hid)
                (attrSafe_trans (attrSafe_copyValueInfo _ _ _ _)
                  (attrSafe_trans (attrSafe_updateValueInfo _ _ _ _)
                    (attrSafe_trans
                      (attrSafe_ite _ _ _ _ id (attrSafe_removeNode _ _ _)
                        (attrSafe_refl _ id))
                      (attrSafe_setInput _ _ _ _ _))))
          · exact attrSafe_transposeInputDefault _ _ _ _ _ _ id hid
        · exact attrSafe_transposeInputDefault _ _ _ _ _ _ id hid
      · exact attrSafe_transposeInputDefault _ _ _ _ _ _ id hid

/-- Attribute safety propagates through a left fold of safe steps. -/
theorem attrSafe_foldl {α : Type} (F : Graph → α → Graph)
    (hF : ∀ g a id, id < g.fresh → AttrSafe g (F g a) id) :
    ∀ (l : List α) (g : Graph) (id : Nat), id < g.fresh →
      AttrSafe g (l.foldl F g) id := by
  intro l
  induction l with
  | nil => intro g id hid; exact attrSafe_refl g id
  | cons a rest ih =>
    intro g id hid
    have h1 := hF g a id hid
    have hid2 : id < (F g a).fresh := lt_of_lt_of_le hid h1.1
    exact attrSafe_trans h1 (ih (F g a) id hid2)

/-- `TransposeInputs` is attribute-safe. -/
theorem attrSafe_transposeInputs (ctx : OptCtx) (g : Graph) (nodeId : Nat)
    (perm : List Int) (inputIndices : List Nat) (id : Nat) (hid : id < g.fresh) :
    AttrSafe g (transposeInputs ctx g nodeId perm inputIndices) id := by
  unfold transposeInputs
  exact attrSafe_foldl _
    (fun g j id hid => attrSafe_transposeInput ctx g nodeId j perm _ id hid)
    inputIndices g id hid

/-- `TransposeOutput` is attribute-safe. -/
theorem attrSafe_transposeOutput (ctx : OptCtx) (g : Graph) (nodeId i : Nat)
    (perm permInv : List Int) (id : Nat) (hid : id < g.fresh) :
    AttrSafe g (transposeOutput ctx g nodeId i perm permInv).2 id := by
  unfold transposeOutput
  exact attrSafe_trans (attrSafe_makeTranspose g "" perm id hid)
    (attrSafe_trans (attrSafe_moveOutput _ _ _ _ _ id)
      (attrSafe_trans (attrSafe_setInput _ _ _ _ _)
        (attrSafe_trans (attrSafe_copyValueInfo _ _ _ _)
          (attrSafe_updateValueInfo _ _ _ _))))

/-- `TransposeOutputs` is attribute-safe. -/
theorem attrSafe_transposeOutputs (ctx : OptCtx) (g : Graph) (nodeId : Nat)
    (perm : List Int) (id : Nat) (hid : id < g.fresh) :
    AttrSafe g (transposeOutputs ctx g nodeId perm) id := by
  unfold transposeOutputs
  split
  · exact attrSafe_refl g id
  · exact attrSafe_foldl _
      (fun g j id hid => attrSafe_transposeOutput ctx g nodeId j perm _ id hid)
      _ g id hid

/-- C6: `HandleSoftHardMax` below opset 13 with a normalized axis `a`
modifies the graph iff for every index i in `[0, rank)` the predicate
`i < a` holds exactly when `perm[i] < a` holds; when it pushes, only the
first input and the outputs are transposed and the node's attributes
(in particular `axis`) are left unchanged; its dispatch entry's
transposible-inputs strategy is `FirstInput`. -/
theorem c6_softmax_coercion (ctx : OptCtx) (args : HArgs) (g : Graph) (node : Node)
    (a : Int)
    (hn : getNode g args.nodeId = some node)
    (hop : ctx.opset < 13)
    (hax : normalizeAndValidateAxis (node.getAttributeIntDefault "axis" 1)
      args.perm.length = some a)
    (hti : args.transposibleInputs = [0])
    (hfresh : args.nodeId < g.fresh) :
    (handleSoftHardMax ctx args g =
      if (List.range args.perm.length).all (fun i =>
          decide ((i : Int) < a) == decide (args.perm.getD i 0 < a))
      then some (true, transposeOutputs ctx
        (transposeInputs ctx g args.nodeId args.permInv [0]) args.nodeId args.perm)
      else some (false, g)) ∧
    (∀ n', getNode (transposeOutputs ctx
        (transposeInputs ctx g args.nodeId args.permInv [0]) args.nodeId args.perm)
        args.nodeId = some n' → n'.attrs = node.attrs) ∧
    softHardMaxHandler.transposibleInputsFn = firstInput := by
  refine ⟨?_, ?_, rfl⟩
  · unfold handleSoftHardMax
    rw [if_neg (by omega)]
    simp only [hn, hax]
    split
    · simp [handleSimpleNode1Inp, handleSimpleNodeBase, hti]
    · rfl
  · intro n' hn'
    have h1 := attrSafe_transposeInputs ctx g args.nodeId args.permInv [0]
      args.nodeId hfresh
    have hfresh2 : args.nodeId
        < (transposeInputs ctx g args.nodeId args.permInv [0]).fresh :=
      lt_of_lt_of_le hfresh h1.1
    have h2 := attrSafe_transposeOutputs ctx _ args.nodeId args.perm args.nodeId hfresh2
    have h3 := attrSafe_trans h1 h2
    obtain ⟨n0, hn0, ha⟩ := h3.2 n' hn'
    rw [hn] at hn0
    rw [ha, Option.some.inj hn0]

/-- C6 witness: the Softmax coercion example at opset 9, axis 1 and perm
`[0,2,1]` (which keeps the split point intact, so the push happens). -/
theorem c6_witness :
    handleSoftHardMax ctx9 exSoftmaxArgs exSoftmaxGraph =
      (if (List.range ([0, 2, 1] : List Int).length).all (fun i =>
          decide ((i : Int) < 1) == decide (([0, 2, 1] : List Int).getD i 0 < 1))
       then some (true, transposeOutputs ctx9
         (transposeInputs ctx9 exSoftmaxGraph 0 [0, 2, 1] [0]) 0 [0, 2, 1])
       else some (false, exSoftmaxGraph)) :=
  (c6_softmax_coercion ctx9 exSoftmaxArgs exSoftmaxGraph exSoftmaxNode 1 (by decide)
    (by decide) (by decide) rfl (by decide)).1

/-! Lemmas for the transpose-fusion claim. -/

/-- `find?` after a replace-or-append update locates the new binding. -/
theorem find?_assocSet (k : String) (v : AttrValue) :
    ∀ l : List (String × AttrValue),
    (assocSet l k v).find? (fun kv => kv.1 = k) = some (k, v) := by
  intro l
  induction l with
  | nil => simp [assocSet, List.find?]
  | cons kv rest ih =>
    obtain ⟨k0, v0⟩ := kv
    by_cases h : k0 = k
    · subst h
      simp [assocSet, List.find?]
    · simp only [assocSet, if_neg h]
      rw [List.find?_cons_of_neg _ (by simp [h]), ih]

/-- Reading back an int-list attribute just written. -/
theorem attrFindInts_assocSet (l : List (String × AttrValue)) (k : String)
    (v : List Int) :
    attrFindInts (assocSet l k (AttrValue.ints v)) k = some v := by
  unfold attrFindInts
  rw [find?_assocSet]

/-- Looking up the node whose attribute was just written. -/
theorem getNode_setAttributeInts_self {g : Graph} {id : Nat} {n : Node}
    (h : getNode g id = some n) (name : String) (v : List Int) :
    getNode (setAttributeInts g id name v) id
      = some { n with attrs := assocSet n.attrs name (AttrValue.ints v) } := by
  unfold setAttributeInts
  rw [getNode_updateNode g id
    (fun n => { n with attrs := assocSet n.attrs name (AttrValue.ints v) })
    (fun n => rfl) id, h]
  simp [getNode_id h]

/-- Looking up the node whose input was just rewired. -/
theorem getNode_setInput_self {g : Graph} {id : Nat} {n : Node}
    (h : getNode g id = some n) (i : Nat) (v : String) :
    getNode (setInput g id i v) id = some { n with inputs := n.inputs.set i v } := by
  unfold setInput
  rw [getNode_updateNode g id (fun n => { n with inputs := n.inputs.set i v })
    (fun n => rfl) id, h]
  simp [getNode_id h]

/-- Reading the head of a list just written at position 0. -/
theorem getD_set_zero (l : List String) (x : String) (d : String) (h : l ≠ []) :
    (l.set 0 x).getD 0 d = x := by
  cases l with
  | nil => exact absurd rfl h
  | cons a rest => rfl

/-- C1 (amended): when the downstream transpose's perm `q` is valid and
differs from `inv(p)`, `HandleTranspose` merges the pair into the
downstream node with perm `ComposePerm(p, q)` — that is
`compose(p, q)[i] = p[q[i]]` in the spec's convention — and rewires its
input to the upstream transpose's input. -/
theorem c1_fusion_amended (ctx : OptCtx) (args : HArgs) (g : Graph)
    (node transpose : Node) (q : List Int)
    (hn : getNode g args.nodeId = some node)
    (ht : getNode g args.transposeId = some transpose)
    (hq : getPermAttrIfValid node = some q)
    (hne : args.permInv ≠ q)
    (hid : args.transposeId ≠ args.nodeId)
    (hinp : node.inputs ≠ []) :
    ∃ g', handleTranspose ctx args g = some (true, g') ∧
      ∃ n', getNode g' args.nodeId = some n' ∧
        n'.getAttributeInts "perm" = some (composePerm args.perm q) ∧
        n'.inputs.getD 0 "" = transpose.inputs.getD 0 "" := by
  unfold handleTranspose
  simp only [hn, ht, hq]
  rw [if_neg hne]
  refine ⟨_, rfl, ?_⟩
  have h1 := getNode_setAttributeInts_self hn "perm" (composePerm args.perm q)
  have h2 := getNode_setInput_self h1 0 (transpose.inputs.getD 0 "")
  refine ⟨{ node with
      attrs := assocSet node.attrs "perm" (AttrValue.ints (composePerm args.perm q))
      inputs := node.inputs.set 0 (transpose.inputs.getD 0 "") }, ?_, ?_, ?_⟩
  · split
    · rw [getNode_removeNode_ne _ _ _ hid]
      exact h2
    · exact h2
  · exact attrFindInts_assocSet node.attrs "perm" (composePerm args.perm q)
  · exact getD_set_zero _ _ _ hinp

/-- C1 counterexample: with upstream perm `p = [1,2,0]` and downstream
perm `q = [1,0,2]` (and `q ≠ inv(p) = [2,0,1]`), the merged transpose's
perm is `[2,1,0] = p∘q`, not the claim's `compose(q, p) = q∘p = [0,2,1]`
under the claimed convention `compose(a,b)[i] = a[b[i]]`. -/
theorem c1_counterexample :
    ((handleTranspose ctx13 exFusionArgs exFusionGraph).bind
      (fun r => if r.1 then permAttrOfNode r.2 1 else none)) = some [2, 1, 0] ∧
    composeSpec [1, 0, 2] [1, 2, 0] = [0, 2, 1] ∧
    ([2, 1, 0] : List Int) ≠ composeSpec [1, 0, 2] [1, 2, 0] := by
  decide

/-- C1 witness: the amended fusion applied to the concrete pair
`Transpose([1,2,0]) → Transpose([1,0,2])`. -/
theorem c1_witness :
    ∃ g', handleTranspose ctx13 exFusionArgs exFusionGraph = some (true, g') ∧
      ∃ n', getNode g' 1 = some n' ∧
        n'.getAttributeInts "perm" = some (composePerm [1, 2, 0] [1, 0, 2]) ∧
        n'.inputs.getD 0 "" = exFusionUpstream.inputs.getD 0 "" :=
  c1_fusion_amended ctx13 exFusionArgs exFusionGraph exFusionDownstream
    exFusionUpstream [1, 0, 2] (by decide) (by decide) (by decide) (by decide)
    (by decide) (by decide)

end OnnxTransposeOpt
